import Mathlib

/-!
# Verification of the rayCave chunk/region/meshing core

A shallow embedding of the storage, generation and meshing core of the
rayCave voxel engine (C++ sources under `src/`), together with theorems
settling the specification claims about it.

Conventions of the embedding:

* machine integers are modelled as `Int`/`Nat`; byte truncation is explicit
  (`% 256`, `% 2^32`);
* the C++ `float` arithmetic of the terrain generator is modelled over `ℚ`
  with the literal constants of the source read as exact rationals;
* the third-party FastNoise generators and the standard-library random
  facilities are external to the repository and enter the model as explicit
  parameters (`GenEnv`): every noise node is a pure function of its
  structural parameters, its inputs and the seed, exactly as the library
  documents, and the `std::mt19937` draw stream is an abstract stream of
  naturals consumed in program order;
* fallible operations return `Option`/`Except`; all reads of input buffers
  are bounds-checked (`List.get?`), so an out-of-bounds access of the C++
  code surfaces as a reachable error value of the model.
-/

namespace RayCave

/-! ## Constants (Chunk.h) -/

def CHUNK_SIZE : Nat := 16

def CHUNK_HEIGHT : Nat := 256

def BLOCKS_PER_CHUNK : Nat := CHUNK_SIZE * CHUNK_SIZE * CHUNK_HEIGHT

/-! Block ids (`enum class BlockType`, BlockDictionary.h). Kept as plain
naturals: the persisted form is one byte per block. -/

def blockAIR : Nat := 0

def blockGRASS : Nat := 1

def blockDIRT : Nat := 2

def blockSTONE : Nat := 3

def blockWOOD : Nat := 4

def blockCOBBLESTONE : Nat := 5

def blockBEDROCK : Nat := 13

/-! ## Byte-level encoding helpers

The C++ code persists 4-byte little-endian integers via `memcpy` of `int` /
`uint32_t` values.  `u32bytes`/`decodeU32` are the little-endian codec on
naturals below `2^32`; `int32bytes`/`decodeInt32` add the two's-complement
view used for signed chunk coordinates. -/

def u32bytes (n : Nat) : List Nat :=
  [n % 256, n / 256 % 256, n / 65536 % 256, n / 16777216 % 256]

def decodeU32 (b0 b1 b2 b3 : Nat) : Nat :=
  b0 + 256 * b1 + 65536 * b2 + 16777216 * b3

def int32bytes (x : Int) : List Nat :=
  u32bytes (x % 4294967296).toNat

def decodeInt32 (n : Nat) : Int :=
  if n < 2147483648 then (n : Int) else (n : Int) - 4294967296

/-- Bounds-checked byte read: `some` exactly when the offset is inside the
buffer. -/
def byteAt (data : List Nat) (i : Nat) : Option Nat :=
  data.get? i

/-- Bounds-checked 4-byte little-endian read at `off`; `none` when any of the
four byte offsets is outside the buffer (the C++ `memcpy` would read out of
bounds there). -/
def readU32At (data : List Nat) (off : Nat) : Option Nat :=
  match byteAt data off, byteAt data (off + 1),
        byteAt data (off + 2), byteAt data (off + 3) with
  | some b0, some b1, some b2, some b3 => some (decodeU32 b0 b1 b2 b3)
  | _, _, _, _ => none

/-! ## Chunk grid (Chunk.h / Chunk.cpp)

`blocks` is the flat `std::array<BlockType, BLOCKS_PER_CHUNK>` viewed as a
function from flat index to block id; indices outside
`[0, BLOCKS_PER_CHUNK)` are never consulted by the operations below. -/

structure Chunk where
  coordX : Int
  coordZ : Int
  blocks : Nat → Nat
  isGenerated : Bool
  isDirty : Bool
  isLoaded : Bool

/-- `Chunk::Chunk(ChunkCoord)`: a fresh, all-air, loaded, not-generated,
not-dirty grid. -/
def mkChunk (cx cz : Int) : Chunk :=
  { coordX := cx, coordZ := cz, blocks := fun _ => blockAIR,
    isGenerated := false, isDirty := false, isLoaded := true }

/-- The flat index `x + z*CHUNK_SIZE + y*CHUNK_SIZE*CHUNK_SIZE` for in-bounds
local coordinates. -/
def blockIndex (x y z : Nat) : Nat :=
  x + z * CHUNK_SIZE + y * CHUNK_SIZE * CHUNK_SIZE

/-- `Chunk::GetBlock(int,int,int)`: air outside the bounds, otherwise the
stored id. -/
def Chunk.GetBlock (c : Chunk) (x y z : Int) : Nat :=
  if x < 0 ∨ x ≥ (CHUNK_SIZE : Int) ∨ y < 0 ∨ y ≥ (CHUNK_HEIGHT : Int) ∨
     z < 0 ∨ z ≥ (CHUNK_SIZE : Int) then
    blockAIR
  else
    c.blocks (blockIndex x.toNat y.toNat z.toNat)

/-- `Chunk::SetBlock(int,int,int,BlockType)`: ignored outside the bounds;
inside, the cell is updated and the dirty flag raised only when the id
actually changes. -/
def Chunk.SetBlock (c : Chunk) (x y z : Int) (v : Nat) : Chunk :=
  if x < 0 ∨ x ≥ (CHUNK_SIZE : Int) ∨ y < 0 ∨ y ≥ (CHUNK_HEIGHT : Int) ∨
     z < 0 ∨ z ≥ (CHUNK_SIZE : Int) then
    c
  else
    let idx := blockIndex x.toNat y.toNat z.toNat
    if c.blocks idx = v then c
    else { c with blocks := fun i => if i = idx then v else c.blocks i,
                  isDirty := true }

/-! ## Chunk serialization (Chunk.cpp, `Serialize` / `Deserialize`) -/

/-- `Chunk::Serialize`: header `'C' 'H' 'K' 1`, the two coordinates as 4-byte
little-endian two's-complement ints, then one byte per block in flat index
order (the C++ `static_cast<unsigned char>` truncates each id modulo 256). -/
def Chunk.Serialize (c : Chunk) : List Nat :=
  [67, 72, 75, 1] ++ int32bytes c.coordX ++ int32bytes c.coordZ ++
    (List.range BLOCKS_PER_CHUNK).map (fun i => c.blocks i % 256)

/-- Outcomes of `Chunk::Deserialize`.  `oobRead` marks the execution path on
which the C++ code performs a `memcpy` past the end of the input vector —
reachable because the size guard before the coordinate reads only requires
8 bytes while the z coordinate occupies bytes 8..11. -/
inductive DeserializeResult where
  | tooShort
  | badMagic
  | oobRead
  | coordMismatch
  | truncated
  | ok (c : Chunk)

/-- `Chunk::Deserialize`, with every buffer access bounds-checked, in source
order: the `size < 8` guard, the magic test on bytes 0..3, the two 4-byte
coordinate reads at offsets 4 and 8, the coordinate comparison, the
`size < 12 + BLOCKS_PER_CHUNK` guard, then the bulk block copy. -/
def Chunk.Deserialize (c : Chunk) (data : List Nat) : DeserializeResult :=
  if data.length < 8 then .tooShort
  else if ¬ (data.get? 0 = some 67 ∧ data.get? 1 = some 72 ∧
             data.get? 2 = some 75 ∧ data.get? 3 = some 1) then .badMagic
  else
    match readU32At data 4, readU32At data 8 with
    | some rawX, some rawZ =>
        let fileX := decodeInt32 rawX
        let fileZ := decodeInt32 rawZ
        if fileX ≠ c.coordX ∨ fileZ ≠ c.coordZ then .coordMismatch
        else if data.length < 12 + BLOCKS_PER_CHUNK then .truncated
        else .ok { c with
          blocks := fun i =>
            if i < BLOCKS_PER_CHUNK then (data.get? (12 + i)).getD 0
            else c.blocks i,
          isGenerated := true, isDirty := false }
    | _, _ => .oobRead

/-- Whether a `Deserialize` run succeeded (C++ return value `true`). -/
def DeserializeResult.isOk : DeserializeResult → Bool
  | .ok _ => true
  | _ => false

/-- The block array of a successful `Deserialize` run, observed cell by
cell. -/
def DeserializeResult.blocksAt : DeserializeResult → Nat → Option Nat
  | .ok c, i => some (c.blocks i)
  | _, _ => none

/-! ## Region store (RegionManager.h / RegionManager.cpp)

The region store persists chunks into per-region files.  Files are modelled
as byte lists; the store state carries the world path, the file system
restricted to region files (a map from region coordinate to file bytes) and
the in-memory header cache. -/

def REGION_SIZE : Nat := 32

/-- One component of `RegionCoord::FromChunkCoord`: C++ truncating division,
shifted for negative inputs so the result is the floor of `v / 32`. -/
def regionFromChunk (v : Int) : Int :=
  if v < 0 then Int.tdiv (v - (REGION_SIZE : Int) + 1) (REGION_SIZE : Int)
  else Int.tdiv v (REGION_SIZE : Int)

/-- One component of `RegionCoord::GetLocalChunkCoord`, including the
negative-result correction of the source. -/
def localFromChunk (v : Int) : Int :=
  let l := v - regionFromChunk v * (REGION_SIZE : Int)
  if l < 0 then l + (REGION_SIZE : Int) else l

/-- `RegionCoord::ToString`: `"r." + std::to_string(x) + "." +
std::to_string(z) + ".mcr"`. -/
def regionCoordToString (rx rz : Int) : String :=
  "r." ++ toString rx ++ "." ++ toString rz ++ ".mcr"

/-- The `RegionManager` constructor: append a `/` to the world path unless it
is empty or already ends with a slash or backslash. -/
def normalizeWorldPath (wp : String) : String :=
  if ¬ wp.isEmpty ∧ wp.back ≠ '/' ∧ wp.back ≠ '\\' then wp ++ "/" else wp

/-- `RegionManager::GetRegionFilePath`: world path (normalized by the
constructor) followed by `"region/"` and the region file name. -/
def getRegionFilePath (wp : String) (rx rz : Int) : String :=
  normalizeWorldPath wp ++ "region/" ++ regionCoordToString rx rz

/-- The spec's description of the region file path, under the world root:
`region/r.<rx>.<rz>.<ext>` with the extension the source actually uses. -/
def regionFilePathSpec (wp : String) (rx rz : Int) : String :=
  normalizeWorldPath wp ++
    ("region/r." ++ toString rx ++ "." ++ toString rz ++ ".mcr")

/-- `RegionHeader`: magic, version and the three parallel `R²`-long slot
tables, each viewed as a function from slot index. -/
structure RegionHeader where
  magic : Nat
  version : Nat
  chunkOffsets : Nat → Nat
  chunkSizes : Nat → Nat
  lastModified : Nat → Nat

def REGION_MAGIC : Nat := 0x52454749

/-- The default-constructed `RegionHeader`: magic and version set, all three
tables zero-filled. -/
def mkRegionHeader : RegionHeader :=
  { magic := REGION_MAGIC, version := 1,
    chunkOffsets := fun _ => 0, chunkSizes := fun _ => 0,
    lastModified := fun _ => 0 }

/-- `RegionHeader::GetChunkIndex`: `localZ * REGION_SIZE + localX`. -/
def chunkIndexInRegion (lx lz : Int) : Int :=
  lz * (REGION_SIZE : Int) + lx

/-- Byte image of one slot table (1024 little-endian `uint32_t`s). -/
def tableBytes (f : Nat → Nat) : List Nat :=
  (List.range (REGION_SIZE * REGION_SIZE)).flatMap (fun i => u32bytes (f i))

/-- Byte image of a `RegionHeader` as `memcpy` lays it out: magic, version,
then the offsets, sizes and mtimes tables. -/
def headerBytes (h : RegionHeader) : List Nat :=
  u32bytes h.magic ++ u32bytes h.version ++ tableBytes h.chunkOffsets ++
    tableBytes h.chunkSizes ++ tableBytes h.lastModified

def REGION_HEADER_SIZE : Nat := 12296

/-- One byte of the header object after `file.read` into a
default-constructed header: file content where the file reaches, the
default header's bytes beyond (a short read leaves the zero-initialized
remainder untouched). -/
def headerMemByte (file : List Nat) (i : Nat) : Nat :=
  (file.get? i).getD (((headerBytes mkRegionHeader).get? i).getD 0)

/-- `RegionManager::LoadRegionHeader`: read the struct image, then validate
magic and version. -/
def loadRegionHeader (file : List Nat) : Option RegionHeader :=
  let b := headerMemByte file
  let h : RegionHeader :=
    { magic := decodeU32 (b 0) (b 1) (b 2) (b 3),
      version := decodeU32 (b 4) (b 5) (b 6) (b 7),
      chunkOffsets := fun i =>
        decodeU32 (b (8 + 4 * i)) (b (9 + 4 * i)) (b (10 + 4 * i))
          (b (11 + 4 * i)),
      chunkSizes := fun i =>
        decodeU32 (b (4104 + 4 * i)) (b (4105 + 4 * i)) (b (4106 + 4 * i))
          (b (4107 + 4 * i)),
      lastModified := fun i =>
        decodeU32 (b (8200 + 4 * i)) (b (8201 + 4 * i)) (b (8202 + 4 * i))
          (b (8203 + 4 * i)) }
  if h.magic ≠ REGION_MAGIC then none
  else if h.version > 1 then none
  else some h

/-- The region store state: world path, region files on disk, header cache. -/
structure RegionStore where
  worldPath : String
  files : Int × Int → Option (List Nat)
  headerCache : Int × Int → Option RegionHeader

/-- An empty world: no region files, cold cache. -/
def mkRegionStore (wp : String) : RegionStore :=
  { worldPath := wp, files := fun _ => none, headerCache := fun _ => none }

/-- `RegionManager::GetRegionHeader`: cache hit, else parse the file, else a
fresh zeroed header when the file does not exist; `none` when the file
exists but fails validation. -/
def RegionStore.getHeader (st : RegionStore) (rc : Int × Int) :
    Option (RegionHeader × RegionStore) :=
  match st.headerCache rc with
  | some h => some (h, st)
  | none =>
    match st.files rc with
    | some bs =>
      match loadRegionHeader bs with
      | some h =>
          some (h, { st with
            headerCache := fun r => if r = rc then some h else st.headerCache r })
      | none => none
    | none =>
      some (mkRegionHeader, { st with
        headerCache := fun r =>
          if r = rc then some mkRegionHeader else st.headerCache r })

/-- The region coordinate owning a chunk coordinate. -/
def regionOfChunk (cx cz : Int) : Int × Int :=
  (regionFromChunk cx, regionFromChunk cz)

/-- The slot index of a chunk inside its region. -/
def slotOfChunk (cx cz : Int) : Nat :=
  (chunkIndexInRegion (localFromChunk cx) (localFromChunk cz)).toNat

/-- The pre-append content of the region file in `RegionManager::SaveChunk`:
the file's bytes when it exists, else the initial header image the code
writes into the freshly created file. -/
def saveFileBase (st₁ : RegionStore) (h : RegionHeader) (rc : Int × Int) :
    List Nat :=
  match st₁.files rc with
  | some bs => bs
  | none => headerBytes h

/-- The slot table after `RegionManager::SaveChunk` records the appended
chunk at `idx`: offset at old end-of-file, size of the serialized bytes,
mtime `now` (each as the `uint32_t` value the caller computed). -/
def saveHeaderUpdate (h : RegionHeader) (idx offset size now : Nat) :
    RegionHeader :=
  { h with
    chunkOffsets := fun i => if i = idx then offset else h.chunkOffsets i,
    chunkSizes := fun i => if i = idx then size else h.chunkSizes i,
    lastModified := fun i => if i = idx then now else h.lastModified i }

/-- The store state after the success path of `RegionManager::SaveChunk`:
chunk bytes appended at end-of-file, the full header image rewritten at byte
0, and the cached header replaced by the updated one.  The recorded offset,
size and mtime go through the source's `static_cast<uint32_t>` — i.e. they
are stored modulo 2^32, so the offset of a chunk appended past the 4 GiB
mark wraps. -/
def saveChunkCore (st₁ : RegionStore) (h : RegionHeader) (c : Chunk)
    (now : Nat) : RegionStore :=
  let rc := regionOfChunk c.coordX c.coordZ
  let idx := slotOfChunk c.coordX c.coordZ
  let bs := saveFileBase st₁ h rc
  let h₁ := saveHeaderUpdate h idx (bs.length % 4294967296)
    ((c.Serialize).length % 4294967296) (now % 4294967296)
  let final := headerBytes h₁ ++ (bs ++ c.Serialize).drop REGION_HEADER_SIZE
  { st₁ with
    files := fun r => if r = rc then some final else st₁.files r,
    headerCache := fun r => if r = rc then some h₁ else st₁.headerCache r }

/-- `RegionManager::SaveChunk`: fetch (or create) the header, serialize the
chunk, append the bytes at end-of-file (writing the initial header first
when the file is being created), update the slot's offset/size/mtime in the
cached header, and rewrite the header image at byte 0. -/
def RegionStore.SaveChunk (st : RegionStore) (c : Chunk) (now : Nat) :
    Option RegionStore :=
  match st.getHeader (regionOfChunk c.coordX c.coordZ) with
  | none => none
  | some (h, st₁) =>
    if (c.Serialize).isEmpty then none
    else some (saveChunkCore st₁ h c now)

/-- `RegionManager::LoadChunk`: fetch the header, reject empty slots, read
`size` bytes at the slot's offset (a short read leaves the tail of the
zero-initialized buffer at zero), and deserialize into the given grid. -/
def RegionStore.LoadChunk (st : RegionStore) (c : Chunk) :
    Option (Chunk × RegionStore) :=
  let rc := regionOfChunk c.coordX c.coordZ
  let idx := slotOfChunk c.coordX c.coordZ
  match st.getHeader rc with
  | none => none
  | some (h, st₁) =>
    if h.chunkOffsets idx = 0 ∨ h.chunkSizes idx = 0 then none
    else
      match st₁.files rc with
      | none => none
      | some bs =>
        let data := (List.range (h.chunkSizes idx)).map
          (fun i => (bs.get? (h.chunkOffsets idx + i)).getD 0)
        match c.Deserialize data with
        | .ok c' => some (c', st₁)
        | _ => none

/-! ## Block catalog (BlockDictionary.h / BlockDictionary.cpp) -/

/-- `enum class BlockFace`. -/
inductive BFace where
  | top
  | bottom
  | north
  | south
  | east
  | west
  | all
deriving DecidableEq

/-- `struct BlockProperties`; the per-face texture map is a partial function
(`std::unordered_map<BlockFace, std::string>`), the tint an RGBA quadruple
of bytes. -/
structure BlockProps where
  name : String
  displayName : String
  isTransparent : Bool
  isLiquid : Bool
  isFlammable : Bool
  isBreakable : Bool
  hardness : ℚ
  lightLevel : Nat
  emitsLight : Bool
  soundGroup : String
  textures : BFace → Option String
  tintR : Nat
  tintG : Nat
  tintB : Nat
  tintA : Nat

/-- The default-constructed `BlockProperties` (BlockDictionary.h:71-74):
opaque, non-liquid, breakable, hardness 1, light 0, sound group "stone",
white tint, no textures, empty names. -/
def defaultBlockProperties : BlockProps :=
  { name := "", displayName := "", isTransparent := false, isLiquid := false,
    isFlammable := false, isBreakable := true, hardness := 1, lightLevel := 0,
    emitsLight := false, soundGroup := "stone", textures := fun _ => none,
    tintR := 255, tintG := 255, tintB := 255, tintA := 255 }

/-- The catalog: the id → properties map loaded from JSON. -/
structure BlockDictionary where
  blockProperties : Nat → Option BlockProps

/-- A catalog with no entries. -/
def emptyBlockDictionary : BlockDictionary :=
  { blockProperties := fun _ => none }

/-- `BlockDictionary::GetBlockProperties`: the entry when present, else the
static default record — never fails. -/
def BlockDictionary.GetBlockProperties (d : BlockDictionary) (id : Nat) :
    BlockProps :=
  (d.blockProperties id).getD defaultBlockProperties

/-- `BlockDictionary::GetTextureName`: the face-specific texture, else the
ALL texture, else the block's (possibly empty) name. -/
def BlockDictionary.GetTextureName (d : BlockDictionary) (id : Nat)
    (face : BFace) : String :=
  let props := d.GetBlockProperties id
  match props.textures face with
  | some t => t
  | none =>
    match props.textures BFace.all with
    | some t => t
    | none => props.name

/-! ## Chunk manager (ChunkManager.h / ChunkManager.cpp)

State restricted to what the block access, eviction and save-queue
operations touch: the live map, the saving queue (FIFO), and the region
store. -/

structure ChunkManagerState where
  loadedChunks : Int × Int → Option Chunk
  savingQueue : List (Int × Int)
  region : RegionStore

/-- `ChunkManager::GetChunk` (map lookup under the manager lock). -/
def ChunkManagerState.GetChunk (st : ChunkManagerState) (coord : Int × Int) :
    Option Chunk :=
  st.loadedChunks coord

/-- `ChunkManager::GetBlock(worldX, worldY, worldZ)` at integral world
coordinates: air for y outside `[0, CHUNK_HEIGHT)` or an unloaded chunk;
otherwise the owning chunk's cell, with `floor(world / CHUNK_SIZE)` chunk
coordinates and the source's negative-local-coordinate correction. -/
def ChunkManagerState.GetBlockAt (st : ChunkManagerState)
    (wx wy wz : Int) : Nat :=
  if wy < 0 ∨ wy ≥ (CHUNK_HEIGHT : Int) then blockAIR
  else
    let cx := Int.fdiv wx (CHUNK_SIZE : Int)
    let cz := Int.fdiv wz (CHUNK_SIZE : Int)
    match st.loadedChunks (cx, cz) with
    | none => blockAIR
    | some ch =>
      let lx := wx - cx * (CHUNK_SIZE : Int)
      let lz := wz - cz * (CHUNK_SIZE : Int)
      let lx := if lx < 0 then lx + (CHUNK_SIZE : Int) else lx
      let lz := if lz < 0 then lz + (CHUNK_SIZE : Int) else lz
      ch.GetBlock lx wy lz

/-- `ChunkManager::SetBlock`: dropped for y outside `[0, CHUNK_HEIGHT)` or
an unloaded chunk; otherwise the owning chunk's cell is written through
`Chunk::SetBlock`. -/
def ChunkManagerState.SetBlockAt (st : ChunkManagerState)
    (wx wy wz : Int) (v : Nat) : ChunkManagerState :=
  if wy < 0 ∨ wy ≥ (CHUNK_HEIGHT : Int) then st
  else
    let cx := Int.fdiv wx (CHUNK_SIZE : Int)
    let cz := Int.fdiv wz (CHUNK_SIZE : Int)
    match st.loadedChunks (cx, cz) with
    | none => st
    | some ch =>
      let lx := wx - cx * (CHUNK_SIZE : Int)
      let lz := wz - cz * (CHUNK_SIZE : Int)
      let lx := if lx < 0 then lx + (CHUNK_SIZE : Int) else lx
      let lz := if lz < 0 then lz + (CHUNK_SIZE : Int) else lz
      { st with loadedChunks := fun r =>
          if r = (cx, cz) then some (ch.SetBlock lx wy lz v)
          else st.loadedChunks r }

/-- `ChunkManager::UnloadChunk`: under the lock, push the coordinate onto
the saving queue when the chunk is dirty, then erase the chunk from the
live map (destroying the object). -/
def ChunkManagerState.UnloadChunk (st : ChunkManagerState)
    (coord : Int × Int) : ChunkManagerState :=
  match st.loadedChunks coord with
  | none => st
  | some ch =>
    { st with
      savingQueue :=
        if ch.isDirty then st.savingQueue ++ [coord] else st.savingQueue,
      loadedChunks := fun r => if r = coord then none else st.loadedChunks r }

/-- `ChunkManager::SaveChunk(coord)`: look the chunk up in the live map; if
present and dirty, hand it to the region store and clear the dirty flag on
success.  A coordinate no longer in the map does nothing. -/
def ChunkManagerState.SaveChunkOp (st : ChunkManagerState)
    (coord : Int × Int) (now : Nat) : ChunkManagerState :=
  match st.loadedChunks coord with
  | none => st
  | some ch =>
    if ch.isDirty then
      match st.region.SaveChunk ch now with
      | some rs =>
        { st with
          region := rs,
          loadedChunks := fun r =>
            if r = coord then some { ch with isDirty := false }
            else st.loadedChunks r }
      | none => st
    else st

/-- `ChunkManager::ProcessSavingQueue`: pop the front coordinate (if any)
and run the queued save step on it. -/
def ChunkManagerState.ProcessSavingQueue (st : ChunkManagerState)
    (now : Nat) : ChunkManagerState :=
  match st.savingQueue with
  | [] => st
  | coord :: rest =>
    ({ st with savingQueue := rest }).SaveChunkOp coord now

/-- A dirty chunk at (3, 4) whose cells all hold cobblestone. -/
def c1DirtyChunk : Chunk :=
  { coordX := 3, coordZ := 4, blocks := fun _ => blockCOBBLESTONE,
    isGenerated := true, isDirty := true, isLoaded := true }

/-- A manager state holding exactly the dirty chunk at (3, 4) over an empty
world. -/
def c1State : ChunkManagerState :=
  { loadedChunks := fun r =>
      if r = ((3 : Int), (4 : Int)) then some c1DirtyChunk else none,
    savingQueue := [],
    region := mkRegionStore "world" }

/-! ## Greedy mesher (Chunk.cpp, `ShouldRenderFace` /
`GenerateQuadsForFace` / `GenerateGreedyMesh`)

The four planar neighbors of `RenderChunks` (north z−1, south z+1, east
x+1, west x−1); the outer `Option` models the `const Chunk* neighbors[4]`
array pointer itself being null. -/

structure NeighborChunks where
  north : Option Chunk
  south : Option Chunk
  east : Option Chunk
  west : Option Chunk

/-- `Chunk::ShouldRenderFace`, in source order: air cells render nothing;
`ALL` always renders; edge faces with a null neighbor array render; an
in-chunk adjacent cell renders iff it is air or a different id; below the
world bottom never renders, above the top always; across a horizontal chunk
boundary the mirrored neighbor cell decides when the neighbor is present,
else the face renders. -/
def Chunk.ShouldRenderFace (c : Chunk) (x y z : Int) (face : BFace)
    (nb : Option NeighborChunks) : Bool :=
  let cur := c.GetBlock x y z
  if cur = blockAIR then false
  else if face = BFace.all then true
  else
    let adjX : Int := match face with
      | .east => x + 1
      | .west => x - 1
      | _ => x
    let adjY : Int := match face with
      | .top => y + 1
      | .bottom => y - 1
      | _ => y
    let adjZ : Int := match face with
      | .north => z - 1
      | .south => z + 1
      | _ => z
    let isEdge : Bool := match face with
      | .north => decide (adjZ < 0)
      | .south => decide (adjZ ≥ (CHUNK_SIZE : Int))
      | .east => decide (adjX ≥ (CHUNK_SIZE : Int))
      | .west => decide (adjX < 0)
      | _ => false
    if isEdge && nb.isNone then true
    else if decide (0 ≤ adjX ∧ adjX < (CHUNK_SIZE : Int) ∧ 0 ≤ adjY ∧
        adjY < (CHUNK_HEIGHT : Int) ∧ 0 ≤ adjZ ∧ adjZ < (CHUNK_SIZE : Int))
    then
      let a := c.GetBlock adjX adjY adjZ
      decide (a = blockAIR ∨ a ≠ cur)
    else if decide (adjY < 0) then false
    else if decide (adjY ≥ (CHUNK_HEIGHT : Int)) then true
    else if isEdge && nb.isSome then
      match nb with
      | some n =>
        let nbc : Option Chunk := match face with
          | .north => n.north
          | .south => n.south
          | .east => n.east
          | .west => n.west
          | _ => none
        let nx : Int := match face with
          | .east => 0
          | .west => (CHUNK_SIZE : Int) - 1
          | _ => x
        let nz : Int := match face with
          | .north => (CHUNK_SIZE : Int) - 1
          | .south => 0
          | _ => z
        match nbc with
        | some nchunk =>
          let b := nchunk.GetBlock nx adjY nz
          decide (b = blockAIR ∨ b ≠ cur)
        | none => true
      | none => true
    else true

/-- An emitted quad: start cell (local coordinates), in-plane extents,
block id, face.  (The source stores the float center/size computed from
exactly these data.) -/
structure QuadMesh where
  qx : Nat
  qy : Nat
  qz : Nat
  width : Nat
  depth : Nat
  blockType : Nat
  face : BFace
deriving DecidableEq

/-- The per-cell test of the horizontal-face column scans: non-air and
renderable. -/
def faceCellOk (c : Chunk) (nb : Option NeighborChunks) (face : BFace)
    (x z y : Nat) : Bool :=
  decide (c.GetBlock ↑x ↑y ↑z ≠ blockAIR) &&
    c.ShouldRenderFace ↑x ↑y ↑z face nb

/-- Downward scan `for (testY = n-1; testY >= 0; testY--)`: the largest
`y < n` satisfying `p`. -/
def scanDown (p : Nat → Bool) : Nat → Option Nat
  | 0 => none
  | fuel + 1 => if p fuel then some fuel else scanDown p fuel

/-- The Y level `GenerateQuadsForFace` picks for a column: highest
renderable cell for TOP, lowest for BOTTOM. -/
def columnFaceY (c : Chunk) (nb : Option NeighborChunks) (face : BFace)
    (x z : Nat) : Option Nat :=
  match face with
  | .top => scanDown (faceCellOk c nb .top x z) CHUNK_HEIGHT
  | _ => (List.range CHUNK_HEIGHT).find? (faceCellOk c nb face x z)

/-- The generic `while (cond width) width++` loop. -/
def growLoop (cond : Nat → Bool) : Nat → Nat → Nat
  | 0, w => w
  | fuel + 1, w => if cond w then growLoop cond fuel (w + 1) else w

/-- The +x growth condition of the horizontal merge: the candidate column is
inside the chunk and unprocessed, has the same face Y, and matches the block
id. -/
def widthCond (c : Chunk) (nb : Option NeighborChunks) (face : BFace)
    (mask : Nat → Nat → Bool) (x z y bt : Nat) (w : Nat) : Bool :=
  decide (x + w < CHUNK_SIZE) && !(mask (x + w) z) &&
    (match columnFaceY c nb face (x + w) z with
     | some ty => decide (ty = y)
     | none => false) &&
    decide (c.GetBlock ↑(x + w) ↑y ↑z = bt)

/-- The +z growth condition: every column of the current width satisfies
the same three conditions at depth `d`. -/
def depthCond (c : Chunk) (nb : Option NeighborChunks) (face : BFace)
    (mask : Nat → Nat → Bool) (x z y bt w : Nat) (d : Nat) : Bool :=
  decide (z + d < CHUNK_SIZE) &&
    (List.range w).all (fun k =>
      !(mask (x + k) (z + d)) &&
        (match columnFaceY c nb face (x + k) (z + d) with
         | some ty => decide (ty = y)
         | none => false) &&
        decide (c.GetBlock ↑(x + k) ↑y ↑(z + d) = bt))

/-- Mark a `width × depth` rectangle of columns processed. -/
def markRect (mask : Nat → Nat → Bool) (x z w d : Nat) :
    Nat → Nat → Bool :=
  fun a b => if x ≤ a ∧ a < x + w ∧ z ≤ b ∧ b < z + d then true else mask a b

/-- The TOP/BOTTOM branch of `GenerateQuadsForFace`: per unprocessed column
find the face Y, grow in +x then +z, emit one quad and mark the
rectangle. -/
def horizPass (c : Chunk) (nb : Option NeighborChunks) (face : BFace) :
    List (Nat × Nat) → (Nat → Nat → Bool) → List QuadMesh → List QuadMesh
  | [], _, acc => acc
  | (x, z) :: rest, mask, acc =>
    if mask x z then horizPass c nb face rest mask acc
    else
      match columnFaceY c nb face x z with
      | none => horizPass c nb face rest (markRect mask x z 1 1) acc
      | some y =>
        let bt := c.GetBlock ↑x ↑y ↑z
        if bt = blockAIR then horizPass c nb face rest (markRect mask x z 1 1) acc
        else
          let w := growLoop (widthCond c nb face mask x z y bt) CHUNK_SIZE 1
          let d := growLoop (depthCond c nb face mask x z y bt w) CHUNK_SIZE 1
          horizPass c nb face rest (markRect mask x z w d)
            (acc ++ [⟨x, y, z, w, d, bt, face⟩])

/-- The 3D cell of slice position (i, j) for a side face. -/
def vertCoords (face : BFace) (i j : Nat) : Nat × Nat × Nat :=
  match face with
  | .north => (i, j, 0)
  | .south => (i, j, CHUNK_SIZE - 1)
  | .east => (CHUNK_SIZE - 1, j, i)
  | .west => (0, j, i)
  | _ => (0, 0, 0)

/-- The in-plane growth condition of the side-face merge. -/
def vertWidthCond (c : Chunk) (nb : Option NeighborChunks) (face : BFace)
    (mask : Nat → Nat → Bool) (i j bt : Nat) (w : Nat) : Bool :=
  decide (i + w < CHUNK_SIZE) && !(mask (i + w) j) &&
    (let t := vertCoords face (i + w) j
     decide (c.GetBlock ↑t.1 ↑t.2.1 ↑t.2.2 = bt) &&
       c.ShouldRenderFace ↑t.1 ↑t.2.1 ↑t.2.2 face nb)

/-- Mark a horizontal strip of slice cells processed. -/
def markStrip (mask : Nat → Nat → Bool) (i j w : Nat) :
    Nat → Nat → Bool :=
  fun a b => if i ≤ a ∧ a < i + w ∧ b = j then true else mask a b

/-- The NORTH/SOUTH/EAST/WEST branch of `GenerateQuadsForFace`: per slice
cell grow a 1-tall strip in the in-plane horizontal direction. -/
def vertPass (c : Chunk) (nb : Option NeighborChunks) (face : BFace) :
    List (Nat × Nat) → (Nat → Nat → Bool) → List QuadMesh → List QuadMesh
  | [], _, acc => acc
  | (i, j) :: rest, mask, acc =>
    if mask i j then vertPass c nb face rest mask acc
    else
      let t := vertCoords face i j
      let bt := c.GetBlock ↑t.1 ↑t.2.1 ↑t.2.2
      if bt = blockAIR ∨
          c.ShouldRenderFace ↑t.1 ↑t.2.1 ↑t.2.2 face nb = false then
        vertPass c nb face rest (markStrip mask i j 1) acc
      else
        let w := growLoop (vertWidthCond c nb face mask i j bt) CHUNK_SIZE 1
        vertPass c nb face rest (markStrip mask i j w)
          (acc ++ [⟨t.1, t.2.1, t.2.2, w, 1, bt, face⟩])

/-- A chunk whose layer y = 64 is uniformly grass with air everywhere
else. -/
def c9WitnessChunk : Chunk :=
  { coordX := 0, coordZ := 0,
    blocks := fun i => if i / 256 = 64 then blockGRASS else blockAIR,
    isGenerated := true, isDirty := false, isLoaded := true }

/-- Column iteration order of the horizontal merge: x outer, z inner. -/
def chunkPositionsXZ : List (Nat × Nat) :=
  (List.range CHUNK_SIZE).flatMap
    (fun x => (List.range CHUNK_SIZE).map (fun z => (x, z)))

/-- Slice iteration order of the side-face merge: i outer, j inner. -/
def vertPositions : List (Nat × Nat) :=
  (List.range CHUNK_SIZE).flatMap
    (fun i => (List.range CHUNK_HEIGHT).map (fun j => (i, j)))

/-- `Chunk::GenerateQuadsForFace`. -/
def Chunk.GenerateQuadsForFace (c : Chunk) (face : BFace)
    (nb : Option NeighborChunks) : List QuadMesh :=
  match face with
  | .top | .bottom =>
    horizPass c nb face chunkPositionsXZ (fun _ _ => false) []
  | .north | .south | .east | .west =>
    vertPass c nb face vertPositions (fun _ _ => false) []
  | .all => []

/-- `Chunk::GenerateGreedyMesh`: the six per-face passes in source order. -/
def Chunk.GenerateGreedyMesh (c : Chunk) (nb : Option NeighborChunks) :
    List QuadMesh :=
  c.GenerateQuadsForFace .top nb ++ c.GenerateQuadsForFace .bottom nb ++
    c.GenerateQuadsForFace .north nb ++ c.GenerateQuadsForFace .south nb ++
    c.GenerateQuadsForFace .east nb ++ c.GenerateQuadsForFace .west nb

/-! ## Terrain generator (WorldGenerator.h / WorldGenerator.cpp)

The FastNoise nodes and the standard-library random facilities are external
libraries; they enter the model as the pure-function parameters of `GenEnv`.
Each noise node is fully determined by its structural parameters (octave
count for the fractal nodes), its input coordinates and the seed passed at
the `GenSingle` call — exactly the library's contract — so one function per
node shape suffices.  `rngStream n` is the n-th raw output of the
`std::mt19937` member seeded at construction, and `uniform01 v` is the value
`uniform_real_distribution<float>(0,1)` derives from one raw draw `v`; the
generator's only mutable state, the position in that stream, is threaded
explicitly. -/

structure GenEnv where
  fbm2D : Nat → ℚ → ℚ → Int → ℚ
  fbm3D : Nat → ℚ → ℚ → ℚ → Int → ℚ
  ridged3D : Nat → ℚ → ℚ → ℚ → Int → ℚ
  cellular3D : ℚ → ℚ → ℚ → Int → ℚ
  rngStream : Nat → Nat
  uniform01 : Nat → ℚ

/-- `enum class BiomeType`. -/
inductive Biome where
  | ocean
  | plains
  | hills
  | mountains
  | desert
  | forest
  | swamp
  | frozenPeaks
deriving DecidableEq

def seaLevel : Int := 64

def dirtDepth : Int := 4

def caveThreshold : ℚ := 0.6

def clampQ (v lo hi : ℚ) : ℚ := max lo (min v hi)

def lerpQ (a b t : ℚ) : ℚ := a + t * (b - a)

def smoothStepQ (e0 e1 x : ℚ) : ℚ :=
  let t := clampQ ((x - e0) / (e1 - e0)) 0 1
  t * t * (3 - 2 * t)

/-- `static_cast<int>` of a float value: truncation toward zero. -/
def ratTrunc (q : ℚ) : Int :=
  if q < 0 then -(⌊-q⌋) else ⌊q⌋

def continentalSpline : List (ℚ × ℚ) :=
  [(-1, 30), (-0.6, 45), (-0.2, 60), (0.1, 70), (0.4, 80), (0.8, 100),
   (1, 120)]

def erosionSpline : List (ℚ × ℚ) :=
  [(-1, 40), (-0.5, 20), (0, 0), (0.5, -20), (1, -40)]

def peaksValleysSpline : List (ℚ × ℚ) :=
  [(-1, -30), (-0.5, -15), (0, 0), (0.5, 15), (1, 30)]

/-- The bracketing-pair search of `WorldGenerator::EvaluateSpline`. -/
def evalSplinePairs : List (ℚ × ℚ) → ℚ → Option ℚ
  | p0 :: p1 :: rest, input =>
    if p0.1 ≤ input ∧ input ≤ p1.1 then
      some (lerpQ p0.2 p1.2
        (smoothStepQ 0 1 ((input - p0.1) / (p1.1 - p0.1))))
    else evalSplinePairs (p1 :: rest) input
  | _, _ => none

/-- `WorldGenerator::EvaluateSpline`: clamp the input to the knot range,
interpolate between the first bracketing pair with smoothstep, fall back to
the last knot's output. -/
def EvaluateSpline (spline : List (ℚ × ℚ)) (input : ℚ) : ℚ :=
  match spline with
  | [] => 0
  | [p] => p.2
  | _ =>
    let inp := clampQ input ((spline.headD (0, 0)).1)
      ((spline.getLastD (0, 0)).1)
    match evalSplinePairs spline inp with
    | some v => v
    | none => (spline.getLastD (0, 0)).2

def GetContinentalness (env : GenEnv) (seed : Int) (wx wz : ℚ) : ℚ :=
  env.fbm2D 4 (wx * 0.0025) (wz * 0.0025) seed

def GetErosion (env : GenEnv) (seed : Int) (wx wz : ℚ) : ℚ :=
  env.fbm2D 4 (wx * 0.005) (wz * 0.005) (seed + 1000)

def GetPeaksValleys (env : GenEnv) (seed : Int) (wx wz : ℚ) : ℚ :=
  env.fbm2D 4 (wx * 0.01) (wz * 0.01) (seed + 2000)

def GetTerrainHeight (c e pv : ℚ) : ℚ :=
  EvaluateSpline continentalSpline c + EvaluateSpline erosionSpline e +
    EvaluateSpline peaksValleysSpline pv

/-- `WorldGenerator::GetHeightAt`: spline sum truncated to int and clamped
to `[1, CHUNK_HEIGHT - 10]`. -/
def GetHeightAt (env : GenEnv) (seed : Int) (wx wz : ℚ) : Int :=
  max 1 (min (ratTrunc (GetTerrainHeight (GetContinentalness env seed wx wz)
    (GetErosion env seed wx wz) (GetPeaksValleys env seed wx wz)))
    ((CHUNK_HEIGHT : Int) - 10))

def GetDensity (env : GenEnv) (seed : Int) (wx wy wz : ℚ) : ℚ :=
  env.fbm3D 3 (wx * 0.02) (wy * 0.02) (wz * 0.02) (seed + 5000)

/-- `WorldGenerator::DetermineBiome`. -/
def DetermineBiome (t m : ℚ) (h : Int) : Biome :=
  if h < seaLevel - 5 then .ocean
  else if h > seaLevel + 60 then
    (if t < -0.3 then .frozenPeaks else .mountains)
  else if t < -0.5 then .frozenPeaks
  else if t > 0.5 then (if m < -0.3 then .desert else .plains)
  else if m > 0.3 then .swamp
  else if m > -0.2 then .forest
  else .hills

/-- `WorldGenerator::GetBiome`: temperature and humidity at frequency
0.003 with seed offsets 3000/4000, plus the column height. -/
def GetBiome (env : GenEnv) (seed : Int) (wx wz : ℚ) : Biome :=
  DetermineBiome (env.fbm2D 3 (wx * 0.003) (wz * 0.003) (seed + 3000))
    (env.fbm2D 3 (wx * 0.003) (wz * 0.003) (seed + 4000))
    (GetHeightAt env seed wx wz)

def GetSurfaceBlock (biome : Biome) (height : Int) : Nat :=
  match biome with
  | .ocean => if height ≤ seaLevel then blockDIRT else blockGRASS
  | .desert => blockDIRT
  | .frozenPeaks => blockSTONE
  | .swamp => blockDIRT
  | _ => blockGRASS

def GetSubsurfaceBlock (_biome : Biome) (_depth : Int) : Nat :=
  blockDIRT

/-- `WorldGenerator::GetBlockTypeForHeight`. -/
def GetBlockTypeForHeight (height surfaceHeight : Int) (biome : Biome) :
    Nat :=
  let depthFromSurface := surfaceHeight - height
  if depthFromSurface < 0 then blockAIR
  else if depthFromSurface = 0 then GetSurfaceBlock biome height
  else if depthFromSurface < dirtDepth then
    GetSubsurfaceBlock biome depthFromSurface
  else blockSTONE

/-- The density value the terrain pass computes for cell height `y` of a
column with surface height `surfaceHeight`: 3D noise plus the
distance-from-surface bias, forced solid two or more cells below the
surface. -/
def terrainDensityValue (env : GenEnv) (seed : Int) (wx wz : ℚ)
    (surfaceHeight y : Int) : ℚ :=
  let density := GetDensity env seed wx ((y : ℚ)) wz
  let surfaceBias := 1 - clampQ (|((y - surfaceHeight : Int) : ℚ)| / 20) 0 1
  if y < surfaceHeight then
    (if y ≤ surfaceHeight - 2 then
      max (density + surfaceBias * 1.5) 0.1
    else density + surfaceBias * 1.5)
  else density - surfaceBias * 0.8

/-- The block the density branch of the terrain pass writes at height
`y`. -/
def terrainBlockAt (env : GenEnv) (seed : Int) (wx wz : ℚ)
    (surfaceHeight : Int) (biome : Biome) (y : Int) : Nat :=
  if terrainDensityValue env seed wx wz surfaceHeight y > 0 then
    GetBlockTypeForHeight y surfaceHeight biome
  else blockAIR

/-- `for (y = a; y < b; y++)` as a list of `Int` heights. -/
def intRangeList (a b : Int) : List Int :=
  (List.range (b - a).toNat).map (fun i : Nat => a + (i : Int))

/-- World coordinate of local column index `l` in the chunk at coordinate
`cc` (`GetWorldOrigin` plus the local offset), as the float the noise calls
receive. -/
def worldQ (cc : Int) (l : Nat) : ℚ :=
  ((cc * (CHUNK_SIZE : Int) + (l : Int) : Int) : ℚ)

/-- One column of `WorldGenerator::GenerateTerrainWithDensity`: the density
window `[max 0 (h-30), min 256 (h+20))`, then the bottom fill (bedrock at
0, stone below `h - 50`, air above), then the top fill with air. -/
def genColumn (env : GenEnv) (seed : Int) (coord : Int × Int) (c : Chunk)
    (x z : Nat) : Chunk :=
  let wx := worldQ coord.1 x
  let wz := worldQ coord.2 z
  let h := GetHeightAt env seed wx wz
  let biome := GetBiome env seed wx wz
  let minY : Int := max 0 (h - 30)
  let maxY : Int := min (CHUNK_HEIGHT : Int) (h + 20)
  let c1 := (intRangeList minY maxY).foldl
    (fun acc y => acc.SetBlock ↑x y ↑z
      (terrainBlockAt env seed wx wz h biome y)) c
  let c2 := (intRangeList 0 minY).foldl
    (fun acc y => acc.SetBlock ↑x y ↑z
      (if y = 0 then blockBEDROCK
       else if y < h - 50 then blockSTONE else blockAIR)) c1
  (intRangeList maxY (CHUNK_HEIGHT : Int)).foldl
    (fun acc y => acc.SetBlock ↑x y ↑z blockAIR) c2

/-- `WorldGenerator::GenerateTerrainWithDensity`: the column pass over all
16×16 columns, x outer and z inner. -/
def GenerateTerrainWithDensity (env : GenEnv) (seed : Int)
    (coord : Int × Int) (c : Chunk) : Chunk :=
  chunkPositionsXZ.foldl
    (fun acc p => genColumn env seed coord acc p.1 p.2) c

/-- The downward surface search `for (y = 255; y >= 0; y--) if != AIR`
shared by decorations and structures. -/
def findSurfaceY (c : Chunk) (x z : Nat) : Option Nat :=
  scanDown (fun y => decide (c.GetBlock ↑x ↑y ↑z ≠ blockAIR)) CHUNK_HEIGHT

/-- `WorldGenerator::PlaceVegetation`: upgrade an exposed DIRT surface cell
to GRASS outside deserts. -/
def PlaceVegetation (c : Chunk) (x z groundHeight : Nat) (biome : Biome) :
    Chunk :=
  if c.GetBlock ↑x ↑groundHeight ↑z = blockDIRT ∧ biome ≠ .desert then
    c.SetBlock ↑x ↑groundHeight ↑z blockGRASS
  else c

/-- One column of `WorldGenerator::ApplySurfaceDecorations`. -/
def decorateColumn (env : GenEnv) (seed : Int) (coord : Int × Int)
    (c : Chunk) (x z : Nat) : Chunk :=
  match findSurfaceY c x z with
  | none => c
  | some sh =>
    if sh < CHUNK_HEIGHT - 1 then
      PlaceVegetation c x z sh (GetBiome env seed (worldQ coord.1 x)
        (worldQ coord.2 z))
    else c

def ApplySurfaceDecorations (env : GenEnv) (seed : Int) (coord : Int × Int)
    (c : Chunk) : Chunk :=
  chunkPositionsXZ.foldl
    (fun acc p => decorateColumn env seed coord acc p.1 p.2) c

/-- `WorldGenerator::ShouldGenerateCave`: the dual ridged-noise test. -/
def ShouldGenerateCave (env : GenEnv) (seed : Int) (qx qy qz : ℚ) : Bool :=
  decide (env.ridged3D 3 (qx * 0.02) (qy * 0.02) (qz * 0.02) (seed + 6000)
      > caveThreshold ∧
    env.ridged3D 3 (qx * 0.01) (qy * 0.03) (qz * 0.01) (seed + 7000)
      > caveThreshold * 0.8)

/-- Cave carving cells: x, z over the chunk, y from 1 below 80. -/
def cavePositions : List (Nat × Nat × Nat) :=
  (List.range CHUNK_SIZE).flatMap (fun x =>
    (List.range CHUNK_SIZE).flatMap (fun z =>
      (List.range 79).map (fun k => (x, z, k + 1))))

def GenerateCaves (env : GenEnv) (seed : Int) (coord : Int × Int)
    (c : Chunk) : Chunk :=
  cavePositions.foldl (fun acc p =>
    if ShouldGenerateCave env seed (worldQ coord.1 p.1) ((p.2.2 : Int) : ℚ)
        (worldQ coord.2 p.2.1) then
      (if acc.GetBlock ↑p.1 ↑p.2.2 ↑p.2.1 ≠ blockAIR then
        acc.SetBlock ↑p.1 ↑p.2.2 ↑p.2.1 blockAIR
      else acc)
    else acc) c

/-- `WorldGenerator::ShouldGenerateOre` (the placeholder ore is
cobblestone). -/
def ShouldGenerateOre (env : GenEnv) (seed : Int) (qx qy qz : ℚ) : Bool :=
  decide (env.cellular3D (qx * 0.1) (qy * 0.1) (qz * 0.1) (seed + 8000)
    > 0.7)

/-- Ore cells: x, z over the chunk, y from 1 below 64. -/
def orePositions : List (Nat × Nat × Nat) :=
  (List.range CHUNK_SIZE).flatMap (fun x =>
    (List.range CHUNK_SIZE).flatMap (fun z =>
      (List.range 63).map (fun k => (x, z, k + 1))))

def GenerateOres (env : GenEnv) (seed : Int) (coord : Int × Int)
    (c : Chunk) : Chunk :=
  orePositions.foldl (fun acc p =>
    if ShouldGenerateOre env seed (worldQ coord.1 p.1) ((p.2.2 : Int) : ℚ)
        (worldQ coord.2 p.2.1) then
      (if acc.GetBlock ↑p.1 ↑p.2.2 ↑p.2.1 = blockSTONE then
        acc.SetBlock ↑p.1 ↑p.2.2 ↑p.2.1 blockCOBBLESTONE
      else acc)
    else acc) c

/-- `WorldGenerator::PlaceTree`: excluded biomes place nothing (and roll no
height); otherwise a 4–6 tall wood column above the ground, the height
consuming one raw rng draw. -/
def PlaceTree (env : GenEnv) (c : Chunk) (x z groundHeight : Nat)
    (biome : Biome) (rng : Nat) : Chunk × Nat :=
  if biome = .desert ∨ biome = .frozenPeaks ∨ biome = .ocean then (c, rng)
  else
    let treeHeight := 4 + env.rngStream rng % 3
    let c1 := (List.range treeHeight).foldl (fun acc k =>
      if groundHeight + (k + 1) < CHUNK_HEIGHT then
        acc.SetBlock ↑x ↑(groundHeight + (k + 1)) ↑z blockWOOD
      else acc) c
    (c1, rng + 1)

/-- The tree sites of `GenerateStructures`: `x, z = 2; < 14; += 4`. -/
def treeSites : List (Nat × Nat) :=
  [(2, 2), (2, 6), (2, 10), (6, 2), (6, 6), (6, 10), (10, 2), (10, 6),
   (10, 10)]

/-- One site of `WorldGenerator::GenerateStructures`: find the surface; if
it lies in `[seaLevel, CHUNK_HEIGHT - 10)`, draw the 10% tree chance (one
rng draw) and place a tree on success. -/
def structureSiteStep (env : GenEnv) (seed : Int) (coord : Int × Int)
    (st : Chunk × Nat) (p : Nat × Nat) : Chunk × Nat :=
  match findSurfaceY st.1 p.1 p.2 with
  | none => st
  | some sh =>
    if seaLevel ≤ (sh : Int) ∧ (sh : Int) < (CHUNK_HEIGHT : Int) - 10 then
      let biome := GetBiome env seed (worldQ coord.1 p.1)
        (worldQ coord.2 p.2)
      let u := env.uniform01 (env.rngStream st.2)
      if u < 0.1 then PlaceTree env st.1 p.1 p.2 sh biome (st.2 + 1)
      else (st.1, st.2 + 1)
    else st

def GenerateStructures (env : GenEnv) (seed : Int) (coord : Int × Int)
    (c : Chunk) (rng : Nat) : Chunk × Nat :=
  treeSites.foldl (structureSiteStep env seed coord) (c, rng)

/-- `WorldGenerator::GenerateChunk`: terrain, surface decorations, caves,
ores, structures, then the generated/dirty flags.  The rng position is the
generator's only cross-chunk state and is threaded in and out. -/
def GenerateChunkM (env : GenEnv) (seed : Int) (c : Chunk) (rng : Nat) :
    Chunk × Nat :=
  let coord := (c.coordX, c.coordZ)
  let c1 := GenerateTerrainWithDensity env seed coord c
  let c2 := ApplySurfaceDecorations env seed coord c1
  let c3 := GenerateCaves env seed coord c2
  let c4 := GenerateOres env seed coord c3
  let s5 := GenerateStructures env seed coord c4 rng
  ({ s5.1 with isGenerated := true, isDirty := true }, s5.2)

/-- The value the terrain pass leaves at height `y₀` of column (x, z): the
three write ranges of `genColumn` cover `[0, 256)` disjointly, so this is
the per-cell profile of `GenerateTerrainWithDensity` (a proof-side
abbreviation of the column body's effect, established by
`terrain_getBlock`). -/
def columnValue (env : GenEnv) (seed : Int) (coord : Int × Int)
    (x z y₀ : Nat) : Nat :=
  let wx := worldQ coord.1 x
  let wz := worldQ coord.2 z
  let h := GetHeightAt env seed wx wz
  let minY : Int := max 0 (h - 30)
  let maxY : Int := min (CHUNK_HEIGHT : Int) (h + 20)
  if minY ≤ (y₀ : Int) ∧ (y₀ : Int) < maxY then
    terrainBlockAt env seed wx wz h (GetBiome env seed wx wz) ↑y₀
  else if (y₀ : Int) < minY then
    (if (y₀ : Int) = 0 then blockBEDROCK
     else if (y₀ : Int) < h - 50 then blockSTONE else blockAIR)
  else blockAIR

/-- A noise environment whose continentalness node returns 0.1 under seed
42 and every node otherwise returns 0: every column then has surface height
70 and biome forest.  The raw rng stream is 0 at position 0 and 5 at every
later position, and the uniform draw maps the raw value 0 to 0 and
everything else to 1/2 — so exactly the first 10%-roll of a generator run
succeeds.  All values are inside the ranges the noise library and
`std::mt19937` can produce. -/
def envForest : GenEnv :=
  { fbm2D := fun _ _ _ s => if s = 42 then (1 : ℚ) / 10 else 0,
    fbm3D := fun _ _ _ _ _ => 0,
    ridged3D := fun _ _ _ _ _ => 0,
    cellular3D := fun _ _ _ _ => 0,
    rngStream := fun n => if n = 0 then 0 else 5,
    uniform01 := fun v => if v = 0 then 0 else (1 : ℚ) / 2 }

/-- A noise environment whose continentalness node returns -1 under seed 42
and every node otherwise returns 0: every column then has surface height
30, so the below-window fill loop `for (y = 0; y < minY; y++)` is empty and
no bedrock is written. -/
def envLow : GenEnv :=
  { fbm2D := fun _ _ _ s => if s = 42 then -1 else 0,
    fbm3D := fun _ _ _ _ _ => 0,
    ridged3D := fun _ _ _ _ _ => 0,
    cellular3D := fun _ _ _ _ => 0,
    rngStream := fun _ => 0,
    uniform01 := fun _ => 1 }

/-- Proof-side column invariant for the flat-at-70 worlds: the cell at
height 69 of the column is dirt or grass and everything from height 70 up
is air.  This is what the terrain pass leaves in every column when every
surface height is 70, and what the decoration and structure passes preserve
at the columns they have not planted a tree in. -/
def siteProfile (c : Chunk) (x z : Nat) : Prop :=
  (c.GetBlock ↑x ((69 : Nat) : Int) ↑z = blockDIRT ∨
   c.GetBlock ↑x ((69 : Nat) : Int) ↑z = blockGRASS) ∧
  ∀ y : Nat, 70 ≤ y → y < 256 → c.GetBlock ↑x ↑y ↑z = blockAIR

/-- `siteProfile` at every column of the chunk. -/
def colProfile (c : Chunk) : Prop :=
  ∀ x z : Nat, x < 16 → z < 16 → siteProfile c x z

/-! ## Theorems -/

/-! ### Byte codec lemmas -/

theorem u32bytes_length (n : Nat) : (u32bytes n).length = 4 := rfl

theorem int32bytes_length (x : Int) : (int32bytes x).length = 4 := rfl

theorem decodeU32_u32bytes (n : Nat) :
    decodeU32 (n % 256) (n / 256 % 256) (n / 65536 % 256) (n / 16777216 % 256) =
      n % 4294967296 := by
  unfold decodeU32
  omega

theorem decodeInt32_encode (x : Int)
    (h1 : -2147483648 ≤ x) (h2 : x < 2147483648) :
    decodeInt32 ((x % 4294967296).toNat) = x := by
  have hnn : 0 ≤ x % 4294967296 := Int.emod_nonneg x (by norm_num)
  have hlt : x % 4294967296 < 4294967296 := Int.emod_lt_of_pos x (by norm_num)
  have hcast : ((x % 4294967296).toNat : Int) = x % 4294967296 :=
    Int.toNat_of_nonneg hnn
  unfold decodeInt32
  split
  · next h =>
      have : ((x % 4294967296).toNat : Int) < 2147483648 := by exact_mod_cast h
      omega
  · next h =>
      have : ¬ ((x % 4294967296).toNat : Int) < 2147483648 := by
        intro hc
        exact h (by exact_mod_cast hc)
      omega

/-! ### Serialize / Deserialize round trip -/

theorem serialize_length (c : Chunk) :
    c.Serialize.length = 12 + BLOCKS_PER_CHUNK := by
  simp only [Chunk.Serialize, List.length_append, List.length_map,
    List.length_range, int32bytes, u32bytes, List.length_cons,
    List.length_nil]

set_option maxRecDepth 16000 in
theorem serialize_cons (c : Chunk) :
    c.Serialize =
      67 :: 72 :: 75 :: 1 ::
        ((c.coordX % 4294967296).toNat % 256 ::
         (c.coordX % 4294967296).toNat / 256 % 256 ::
         (c.coordX % 4294967296).toNat / 65536 % 256 ::
         (c.coordX % 4294967296).toNat / 16777216 % 256 ::
         ((c.coordZ % 4294967296).toNat % 256 ::
          (c.coordZ % 4294967296).toNat / 256 % 256 ::
          (c.coordZ % 4294967296).toNat / 65536 % 256 ::
          (c.coordZ % 4294967296).toNat / 16777216 % 256 ::
          (List.range BLOCKS_PER_CHUNK).map (fun i => c.blocks i % 256))) := by
  simp only [Chunk.Serialize, int32bytes, u32bytes, List.cons_append,
    List.nil_append, List.append_assoc]

theorem serialize_get_block (c : Chunk) (i : Nat) (hi : i < BLOCKS_PER_CHUNK) :
    c.Serialize.get? (12 + i) = some (c.blocks i % 256) := by
  have hlen12 :
      (([67, 72, 75, 1] ++ int32bytes c.coordX) ++ int32bytes c.coordZ).length
        = 12 := by
    simp [int32bytes, u32bytes]
  rw [List.get?_eq_getElem?]
  unfold Chunk.Serialize
  rw [List.getElem?_append_right (by rw [hlen12]; omega), hlen12]
  have hsub : 12 + i - 12 = i := by omega
  rw [hsub, List.getElem?_map, List.getElem?_range hi]
  rfl

/-- Shared round-trip helper: deserializing `c.Serialize` into any grid with
the same coordinate succeeds and fills each cell with the corresponding byte
(`c`'s id modulo 256), provided the coordinates fit a 32-bit int. -/
theorem deserialize_serialize (c c0 : Chunk)
    (hcx : c0.coordX = c.coordX) (hcz : c0.coordZ = c.coordZ)
    (hx1 : -2147483648 ≤ c.coordX) (hx2 : c.coordX < 2147483648)
    (hz1 : -2147483648 ≤ c.coordZ) (hz2 : c.coordZ < 2147483648) :
    (c0.Deserialize c.Serialize).isOk = true ∧
      ∀ i, i < BLOCKS_PER_CHUNK →
        (c0.Deserialize c.Serialize).blocksAt i = some (c.blocks i % 256) := by
  have hlen : c.Serialize.length = 12 + BLOCKS_PER_CHUNK := serialize_length c
  have hx : readU32At c.Serialize 4 = some ((c.coordX % 4294967296).toNat) := by
    rw [serialize_cons]
    show readU32At _ 4 = _
    simp only [readU32At, byteAt, List.get?]
    rw [decodeU32_u32bytes]
    congr 1
    have : (c.coordX % 4294967296).toNat < 4294967296 := by
      have hnn : 0 ≤ c.coordX % 4294967296 := Int.emod_nonneg _ (by norm_num)
      have hlt : c.coordX % 4294967296 < 4294967296 :=
        Int.emod_lt_of_pos _ (by norm_num)
      omega
    omega
  have hz : readU32At c.Serialize 8 = some ((c.coordZ % 4294967296).toNat) := by
    rw [serialize_cons]
    show readU32At _ 8 = _
    simp only [readU32At, byteAt, List.get?]
    rw [decodeU32_u32bytes]
    congr 1
    have : (c.coordZ % 4294967296).toNat < 4294967296 := by
      have hnn : 0 ≤ c.coordZ % 4294967296 := Int.emod_nonneg _ (by norm_num)
      have hlt : c.coordZ % 4294967296 < 4294967296 :=
        Int.emod_lt_of_pos _ (by norm_num)
      omega
    omega
  have hmagic : c.Serialize.get? 0 = some 67 ∧ c.Serialize.get? 1 = some 72 ∧
      c.Serialize.get? 2 = some 75 ∧ c.Serialize.get? 3 = some 1 := by
    rw [serialize_cons]
    exact ⟨rfl, rfl, rfl, rfl⟩
  unfold Chunk.Deserialize
  rw [hx, hz, hlen]
  have hns : ¬ (12 + BLOCKS_PER_CHUNK < 8) := by decide
  rw [if_neg hns, if_neg (not_not_intro hmagic)]
  dsimp only
  rw [decodeInt32_encode c.coordX hx1 hx2, decodeInt32_encode c.coordZ hz1 hz2]
  rw [if_neg (by simp [hcx, hcz]), if_neg (by omega)]
  refine ⟨rfl, ?_⟩
  intro i hi
  show some (if i < BLOCKS_PER_CHUNK then (c.Serialize.get? (12 + i)).getD 0
             else c0.blocks i) = _
  rw [if_pos hi, serialize_get_block c i hi]
  rfl

/-- C3. For every chunk `c` (block ids being bytes, coordinates fitting a
32-bit int), deserializing `c.Serialize` into a fresh grid with the same
coordinate succeeds and reproduces exactly `c`'s block array. -/
theorem c3_chunk_serialization_roundtrip (c : Chunk)
    (hb : ∀ i, i < BLOCKS_PER_CHUNK → c.blocks i < 256)
    (hx1 : -2147483648 ≤ c.coordX) (hx2 : c.coordX < 2147483648)
    (hz1 : -2147483648 ≤ c.coordZ) (hz2 : c.coordZ < 2147483648) :
    ((mkChunk c.coordX c.coordZ).Deserialize c.Serialize).isOk = true ∧
      ∀ i, i < BLOCKS_PER_CHUNK →
        ((mkChunk c.coordX c.coordZ).Deserialize c.Serialize).blocksAt i =
          some (c.blocks i) := by
  obtain ⟨hok, hblocks⟩ :=
    deserialize_serialize c (mkChunk c.coordX c.coordZ) rfl rfl hx1 hx2 hz1 hz2
  refine ⟨hok, fun i hi => ?_⟩
  rw [hblocks i hi, Nat.mod_eq_of_lt (hb i hi)]

/-- Witness for C3 at the fresh chunk with coordinate (3, -5). -/
theorem c3_chunk_serialization_roundtrip_witness :
    ((mkChunk 3 (-5)).Deserialize (mkChunk 3 (-5)).Serialize).isOk = true := by
  have hb : ∀ i, i < BLOCKS_PER_CHUNK → (mkChunk 3 (-5)).blocks i < 256 := by
    intro i _
    show blockAIR < 256
    decide
  exact (c3_chunk_serialization_roundtrip (mkChunk 3 (-5)) hb (by decide)
    (by decide) (by decide) (by decide)).1

/-! ### Region file naming (C5) -/

/-- C5 counterexample: at region coordinate (0, 0) under world root
`"world"`, the store's file path ends in `.mcr`, not in `.rgn` as the claim
states. -/
theorem c5_region_file_extension_counterexample :
    getRegionFilePath "world" 0 0 = "world/region/r.0.0.mcr" ∧
      getRegionFilePath "world" 0 0 ≠ "world/region/r.0.0.rgn" := by
  constructor
  · rfl
  · decide

/-- C5 (amended). For every region coordinate (rx, rz) the region store
reads and writes the path `region/r.<rx>.<rz>.mcr` under the world root:
the source's extension is `.mcr`, not the `.rgn` stated by the spec. -/
theorem c5_region_file_path_amended (wp : String) (rx rz : Int) :
    getRegionFilePath wp rx rz = regionFilePathSpec wp rx rz := by
  unfold getRegionFilePath regionFilePathSpec regionCoordToString
  rw [show ("region/r." : String) = "region/" ++ "r." from rfl]
  simp only [String.append_assoc]

/-! ### Region store round trip (C4) -/

theorem serialize_isEmpty (c : Chunk) : c.Serialize.isEmpty = false := by
  rw [serialize_cons]
  rfl

theorem flatMap_length_const (g : Nat → List Nat)
    (h4 : ∀ i, (g i).length = 4) :
    ∀ l : List Nat, (l.flatMap g).length = 4 * l.length := by
  intro l
  induction l with
  | nil => rfl
  | cons a t ih =>
      rw [List.flatMap_cons, List.length_append, h4, ih, List.length_cons]
      omega

theorem tableBytes_length (f : Nat → Nat) : (tableBytes f).length = 4096 := by
  unfold tableBytes
  rw [flatMap_length_const _ (fun i => u32bytes_length (f i)),
    List.length_range]
  decide

theorem headerBytes_length (h : RegionHeader) :
    (headerBytes h).length = REGION_HEADER_SIZE := by
  unfold headerBytes REGION_HEADER_SIZE
  simp only [List.length_append, tableBytes_length, u32bytes,
    List.length_cons, List.length_nil]

theorem getHeader_files (st : RegionStore) (rc : Int × Int)
    (h : RegionHeader) (st₁ : RegionStore)
    (hg : st.getHeader rc = some (h, st₁)) : st₁.files = st.files := by
  unfold RegionStore.getHeader at hg
  split at hg
  · cases hg
    rfl
  · split at hg
    · split at hg
      · cases hg
        rfl
      · cases hg
    · cases hg
      rfl

theorem deserializeResult_isOk_iff (r : DeserializeResult) :
    r.isOk = true ↔ ∃ c, r = .ok c := by
  cases r <;> simp [DeserializeResult.isOk]

/-- Reading back `ser.length` bytes at offset `bs.length` from the region
file laid out as `header ++ (bs ++ ser).drop HEADER_SIZE` returns exactly
`ser`, provided the pre-existing bytes `bs` covered at least the header. -/
theorem region_read_slice (hdr bs ser : List Nat)
    (hh : hdr.length = REGION_HEADER_SIZE)
    (hbs : REGION_HEADER_SIZE ≤ bs.length) :
    (List.range ser.length).map
        (fun i =>
          ((hdr ++ (bs ++ ser).drop REGION_HEADER_SIZE).get?
            (bs.length + i)).getD 0) = ser := by
  apply List.ext_getElem?
  intro n
  rw [List.getElem?_map]
  by_cases hn : n < ser.length
  · rw [List.getElem?_range hn, Option.map_some']
    rw [List.get?_eq_getElem?]
    rw [List.getElem?_append_right (by omega)]
    rw [hh]
    rw [List.getElem?_drop]
    have hidx : REGION_HEADER_SIZE + (bs.length + n - REGION_HEADER_SIZE) =
        bs.length + n := by omega
    rw [hidx]
    rw [List.getElem?_append_right (by omega)]
    have hidx2 : bs.length + n - bs.length = n := by omega
    rw [hidx2, List.getElem?_eq_getElem hn]
    simp
  · rw [List.getElem?_eq_none (by simpa using hn),
        List.getElem?_eq_none (by simpa using hn)]
    rfl

/-- After the success path of a save, loading the same coordinate into a
fresh grid succeeds and returns the saved block bytes.  Requires the
pre-append file length to fit the `uint32_t` slot offset (the source's
`static_cast<uint32_t>(file.tellg())` wraps past 4 GiB, after which the
recorded offset no longer points at the appended bytes). -/
theorem loadChunk_saveChunkCore (st₁ : RegionStore) (h : RegionHeader)
    (c : Chunk) (now : Nat)
    (hx1 : -2147483648 ≤ c.coordX) (hx2 : c.coordX < 2147483648)
    (hz1 : -2147483648 ≤ c.coordZ) (hz2 : c.coordZ < 2147483648)
    (hwf : ∀ bs, st₁.files (regionOfChunk c.coordX c.coordZ) = some bs →
      REGION_HEADER_SIZE ≤ bs.length)
    (hwf32 : ∀ bs, st₁.files (regionOfChunk c.coordX c.coordZ) = some bs →
      bs.length < 4294967296) :
    ((saveChunkCore st₁ h c now).LoadChunk
        (mkChunk c.coordX c.coordZ)).isSome = true ∧
      ∀ i, i < BLOCKS_PER_CHUNK →
        Option.map (fun p => p.1.blocks i)
            ((saveChunkCore st₁ h c now).LoadChunk
              (mkChunk c.coordX c.coordZ)) = some (c.blocks i % 256) := by
  have hfreshX : (mkChunk c.coordX c.coordZ).coordX = c.coordX := rfl
  have hfreshZ : (mkChunk c.coordX c.coordZ).coordZ = c.coordZ := rfl
  have hbslen : REGION_HEADER_SIZE ≤
      (saveFileBase st₁ h (regionOfChunk c.coordX c.coordZ)).length := by
    unfold saveFileBase
    cases hf : st₁.files (regionOfChunk c.coordX c.coordZ) with
    | some l => exact hwf l hf
    | none => rw [headerBytes_length]
  have hbfit : (saveFileBase st₁ h (regionOfChunk c.coordX c.coordZ)).length
      < 4294967296 := by
    unfold saveFileBase
    cases hf : st₁.files (regionOfChunk c.coordX c.coordZ) with
    | some l => exact hwf32 l hf
    | none =>
        rw [headerBytes_length]
        decide
  -- with the pre-append length inside uint32 range, the stored offset and
  -- size are not wrapped
  have hofid : (saveFileBase st₁ h (regionOfChunk c.coordX c.coordZ)).length
      % 4294967296 =
      (saveFileBase st₁ h (regionOfChunk c.coordX c.coordZ)).length :=
    Nat.mod_eq_of_lt hbfit
  have hszid : (c.Serialize).length % 4294967296 = (c.Serialize).length := by
    rw [serialize_length]
    decide
  -- the state after the save, with its header and file
  have hcache : (saveChunkCore st₁ h c now).headerCache
      (regionOfChunk c.coordX c.coordZ) =
      some (saveHeaderUpdate h (slotOfChunk c.coordX c.coordZ)
        (saveFileBase st₁ h (regionOfChunk c.coordX c.coordZ)).length
        (c.Serialize).length (now % 4294967296)) := by
    unfold saveChunkCore
    simp [hofid, hszid]
  have hfile : (saveChunkCore st₁ h c now).files
      (regionOfChunk c.coordX c.coordZ) =
      some (headerBytes (saveHeaderUpdate h (slotOfChunk c.coordX c.coordZ)
          (saveFileBase st₁ h (regionOfChunk c.coordX c.coordZ)).length
          (c.Serialize).length (now % 4294967296)) ++
        ((saveFileBase st₁ h (regionOfChunk c.coordX c.coordZ) ++
          c.Serialize).drop REGION_HEADER_SIZE)) := by
    unfold saveChunkCore
    simp [hofid, hszid]
  have hgh : (saveChunkCore st₁ h c now).getHeader
      (regionOfChunk c.coordX c.coordZ) =
      some (saveHeaderUpdate h (slotOfChunk c.coordX c.coordZ)
        (saveFileBase st₁ h (regionOfChunk c.coordX c.coordZ)).length
        (c.Serialize).length (now % 4294967296),
        saveChunkCore st₁ h c now) := by
    unfold RegionStore.getHeader
    rw [hcache]
  have hoff : (saveHeaderUpdate h (slotOfChunk c.coordX c.coordZ)
      (saveFileBase st₁ h (regionOfChunk c.coordX c.coordZ)).length
      (c.Serialize).length (now % 4294967296)).chunkOffsets
        (slotOfChunk c.coordX c.coordZ) =
      (saveFileBase st₁ h (regionOfChunk c.coordX c.coordZ)).length := by
    unfold saveHeaderUpdate
    simp
  have hsize : (saveHeaderUpdate h (slotOfChunk c.coordX c.coordZ)
      (saveFileBase st₁ h (regionOfChunk c.coordX c.coordZ)).length
      (c.Serialize).length (now % 4294967296)).chunkSizes
        (slotOfChunk c.coordX c.coordZ) =
      (c.Serialize).length := by
    unfold saveHeaderUpdate
    simp
  have hslice : (List.range
        ((c.Serialize).length)).map
      (fun i =>
        (((headerBytes (saveHeaderUpdate h (slotOfChunk c.coordX c.coordZ)
            (saveFileBase st₁ h (regionOfChunk c.coordX c.coordZ)).length
            (c.Serialize).length (now % 4294967296)) ++
          ((saveFileBase st₁ h (regionOfChunk c.coordX c.coordZ) ++
            c.Serialize).drop REGION_HEADER_SIZE))).get?
          ((saveFileBase st₁ h (regionOfChunk c.coordX c.coordZ)).length + i)).getD 0)
      = c.Serialize :=
    region_read_slice _ _ _ (headerBytes_length _) hbslen
  obtain ⟨hok, hbl⟩ := deserialize_serialize c (mkChunk c.coordX c.coordZ)
    hfreshX hfreshZ hx1 hx2 hz1 hz2
  obtain ⟨c', hc'⟩ := (deserializeResult_isOk_iff _).mp hok
  have hload : (saveChunkCore st₁ h c now).LoadChunk
      (mkChunk c.coordX c.coordZ) = some (c', saveChunkCore st₁ h c now) := by
    unfold RegionStore.LoadChunk
    dsimp only
    rw [hfreshX, hfreshZ, hgh]
    dsimp only
    rw [hoff, hsize]
    rw [if_neg (by
      push_neg
      constructor
      · intro hzero
        have := hbslen
        rw [hzero] at this
        exact absurd this (by decide)
      · rw [serialize_length]
        decide)]
    rw [hfile]
    dsimp only
    rw [hslice, hc']
  refine ⟨by rw [hload]; rfl, fun i hi => ?_⟩
  rw [hload]
  have := hbl i hi
  rw [hc'] at this
  have hbi : c'.blocks i = c.blocks i % 256 := by
    simpa [DeserializeResult.blocksAt] using this
  simp [hbi]

/-- C4. For every chunk `c` (byte-valued blocks, 32-bit coordinates,
including negative ones) and any store whose pre-existing region file — if
present — covers at least the header and is smaller than 4 GiB (so the
appended chunk's offset fits the `uint32_t` slot the source casts it into):
after `SaveChunk(c)` succeeds, a `LoadChunk` into a fresh chunk with the
same coordinate succeeds and yields block contents equal to `c` (the slot's
offset and size written by save are the ones load reads). -/
theorem c4_region_store_roundtrip (st st' : RegionStore) (c : Chunk)
    (now : Nat)
    (hb : ∀ i, i < BLOCKS_PER_CHUNK → c.blocks i < 256)
    (hx1 : -2147483648 ≤ c.coordX) (hx2 : c.coordX < 2147483648)
    (hz1 : -2147483648 ≤ c.coordZ) (hz2 : c.coordZ < 2147483648)
    (hwf : ∀ bs, st.files (regionOfChunk c.coordX c.coordZ) = some bs →
      REGION_HEADER_SIZE ≤ bs.length)
    (hwf32 : ∀ bs, st.files (regionOfChunk c.coordX c.coordZ) = some bs →
      bs.length < 4294967296)
    (hs : st.SaveChunk c now = some st') :
    (st'.LoadChunk (mkChunk c.coordX c.coordZ)).isSome = true ∧
      ∀ i, i < BLOCKS_PER_CHUNK →
        Option.map (fun p => p.1.blocks i)
            (st'.LoadChunk (mkChunk c.coordX c.coordZ)) =
          some (c.blocks i) := by
  unfold RegionStore.SaveChunk at hs
  cases hgh : st.getHeader (regionOfChunk c.coordX c.coordZ) with
  | none =>
      rw [hgh] at hs
      exact Option.noConfusion hs
  | some pr =>
      obtain ⟨h, st₁⟩ := pr
      rw [hgh] at hs
      rw [serialize_isEmpty] at hs
      simp only [Bool.false_eq_true, if_false, Option.some.injEq] at hs
      subst hs
      have hwf₁ : ∀ bs,
          st₁.files (regionOfChunk c.coordX c.coordZ) = some bs →
          REGION_HEADER_SIZE ≤ bs.length := by
        rw [getHeader_files st _ h st₁ hgh]
        exact hwf
      have hwf32₁ : ∀ bs,
          st₁.files (regionOfChunk c.coordX c.coordZ) = some bs →
          bs.length < 4294967296 := by
        rw [getHeader_files st _ h st₁ hgh]
        exact hwf32
      obtain ⟨hok, hbl⟩ :=
        loadChunk_saveChunkCore st₁ h c now hx1 hx2 hz1 hz2 hwf₁ hwf32₁
      refine ⟨hok, fun i hi => ?_⟩
      rw [hbl i hi, Nat.mod_eq_of_lt (hb i hi)]

/-- Witness for C4: saving the all-air chunk (0, 0) into an empty world and
loading it back. -/
theorem c4_region_store_roundtrip_witness :
    ∃ st', (mkRegionStore "world").SaveChunk (mkChunk 0 0) 0 = some st' ∧
      (st'.LoadChunk (mkChunk 0 0)).isSome = true := by
  refine ⟨((mkRegionStore "world").SaveChunk (mkChunk 0 0) 0).getD
    (mkRegionStore "world"), rfl, ?_⟩
  have hb : ∀ i, i < BLOCKS_PER_CHUNK → (mkChunk 0 0).blocks i < 256 := by
    intro i _
    show blockAIR < 256
    decide
  have hwf : ∀ bs,
      (mkRegionStore "world").files (regionOfChunk 0 0) = some bs →
      REGION_HEADER_SIZE ≤ bs.length := by
    intro bs hbs
    exact Option.noConfusion hbs
  have hwf32 : ∀ bs,
      (mkRegionStore "world").files (regionOfChunk 0 0) = some bs →
      bs.length < 4294967296 := by
    intro bs hbs
    exact Option.noConfusion hbs
  exact (c4_region_store_roundtrip (mkRegionStore "world") _ (mkChunk 0 0) 0
    hb (by decide) (by decide) (by decide) (by decide) hwf hwf32 rfl).1

/-! ### Block catalog defaults (C7) -/

/-- C7 counterexample: for an id with no catalog entry the texture key is
the empty string (the default record's empty name), not `"default"` as the
claim states. -/
theorem c7_unknown_texture_counterexample :
    emptyBlockDictionary.GetTextureName 999 BFace.top = "" ∧
      emptyBlockDictionary.GetTextureName 999 BFace.top ≠ "default" := by
  exact ⟨rfl, by decide⟩

/-- C7 (amended). For every block id with no entry in the catalog,
`GetBlockProperties` returns (without failing) the stable default record —
opaque, breakable, hardness 1, tint white — and the texture key returned by
`GetTextureName` is the empty string (the default record's name) for every
face, not `"default"`. -/
theorem c7_unknown_block_default_amended (d : BlockDictionary) (id : Nat)
    (h : d.blockProperties id = none) :
    d.GetBlockProperties id = defaultBlockProperties ∧
      (d.GetBlockProperties id).isTransparent = false ∧
      (d.GetBlockProperties id).isBreakable = true ∧
      (d.GetBlockProperties id).hardness = 1 ∧
      ((d.GetBlockProperties id).tintR = 255 ∧
        (d.GetBlockProperties id).tintG = 255 ∧
        (d.GetBlockProperties id).tintB = 255 ∧
        (d.GetBlockProperties id).tintA = 255) ∧
      ∀ face, d.GetTextureName id face = "" := by
  have hp : d.GetBlockProperties id = defaultBlockProperties := by
    unfold BlockDictionary.GetBlockProperties
    rw [h]
    rfl
  refine ⟨hp, by rw [hp]; rfl, by rw [hp]; rfl, by rw [hp]; rfl,
    ⟨by rw [hp]; rfl, by rw [hp]; rfl, by rw [hp]; rfl, by rw [hp]; rfl⟩,
    fun face => ?_⟩
  unfold BlockDictionary.GetTextureName
  rw [hp]
  rfl

/-- Witness for C7 (amended) at the empty catalog and id 999. -/
theorem c7_unknown_block_default_witness :
    emptyBlockDictionary.GetBlockProperties 999 = defaultBlockProperties ∧
      emptyBlockDictionary.GetTextureName 999 BFace.north = "" :=
  ⟨(c7_unknown_block_default_amended emptyBlockDictionary 999 rfl).1,
    (c7_unknown_block_default_amended
      emptyBlockDictionary 999 rfl).2.2.2.2.2 BFace.north⟩

/-! ### Eviction loses dirty chunks (C1) -/

/-- C1. The claim fails on the code: evicting the dirty chunk at (3, 4)
pushes its coordinate onto the saving queue but erases (destroys) the chunk
immediately; when the queued `SaveChunk` step runs, `GetChunk` no longer
finds the chunk, so nothing reaches the region store — the file map still
has no entry for the chunk's region, the chunk is gone from the live map,
and the queue is drained. -/
theorem c1_eviction_loses_dirty_chunk :
    (c1State.UnloadChunk (3, 4)).savingQueue = [(3, 4)] ∧
      ((c1State.UnloadChunk (3, 4)).ProcessSavingQueue 0).region.files
          (regionOfChunk 3 4) = none ∧
      ((c1State.UnloadChunk (3, 4)).ProcessSavingQueue 0).loadedChunks
          (3, 4) = none ∧
      ((c1State.UnloadChunk (3, 4)).ProcessSavingQueue 0).savingQueue
          = [] := by
  exact ⟨rfl, rfl, rfl, rfl⟩

/-! ### Manager block access (C6) -/

theorem chunk_get_set_same (ch : Chunk) (x y z : Int) (v : Nat)
    (hx0 : 0 ≤ x) (hx1 : x < (CHUNK_SIZE : Int))
    (hy0 : 0 ≤ y) (hy1 : y < (CHUNK_HEIGHT : Int))
    (hz0 : 0 ≤ z) (hz1 : z < (CHUNK_SIZE : Int)) :
    (ch.SetBlock x y z v).GetBlock x y z = v := by
  have hcond : ¬ (x < 0 ∨ x ≥ (CHUNK_SIZE : Int) ∨ y < 0 ∨
      y ≥ (CHUNK_HEIGHT : Int) ∨ z < 0 ∨ z ≥ (CHUNK_SIZE : Int)) := by
    omega
  unfold Chunk.SetBlock
  rw [if_neg hcond]
  dsimp only
  by_cases hsame : ch.blocks (blockIndex x.toNat y.toNat z.toNat) = v
  · rw [if_pos hsame]
    unfold Chunk.GetBlock
    rw [if_neg hcond]
    exact hsame
  · rw [if_neg hsame]
    unfold Chunk.GetBlock
    rw [if_neg hcond]
    simp

theorem sub_fdiv_mul_bounds (a : Int) :
    0 ≤ a - Int.fdiv a (CHUNK_SIZE : Int) * (CHUNK_SIZE : Int) ∧
      a - Int.fdiv a (CHUNK_SIZE : Int) * (CHUNK_SIZE : Int) <
        (CHUNK_SIZE : Int) := by
  have h16 : (CHUNK_SIZE : Int) = 16 := rfl
  rw [h16, Int.fdiv_eq_ediv a (by norm_num)]
  have hmod := Int.emod_def a 16
  have h0 : 0 ≤ a % 16 := Int.emod_nonneg a (by norm_num)
  have h1 : a % 16 < 16 := Int.emod_lt_of_pos a (by norm_num)
  omega

/-- C6. For every manager state, integral world position (wx, wy, wz) and
id v: when wy lies in `[0, CHUNK_HEIGHT)` and the owning chunk is loaded,
`get_block` right after `set_block` returns v; when wy is out of range or
the owning chunk is not loaded, `get_block` returns AIR and `set_block`
leaves the state untouched. -/
theorem c6_block_access (st : ChunkManagerState) (wx wy wz : Int) (v : Nat) :
    ((0 ≤ wy ∧ wy < (CHUNK_HEIGHT : Int) ∧
        (st.loadedChunks (Int.fdiv wx (CHUNK_SIZE : Int),
          Int.fdiv wz (CHUNK_SIZE : Int))).isSome = true) →
      (st.SetBlockAt wx wy wz v).GetBlockAt wx wy wz = v) ∧
    ((wy < 0 ∨ (CHUNK_HEIGHT : Int) ≤ wy ∨
        st.loadedChunks (Int.fdiv wx (CHUNK_SIZE : Int),
          Int.fdiv wz (CHUNK_SIZE : Int)) = none) →
      st.GetBlockAt wx wy wz = blockAIR ∧
        st.SetBlockAt wx wy wz v = st) := by
  obtain ⟨hlx0, hlx1⟩ := sub_fdiv_mul_bounds wx
  obtain ⟨hlz0, hlz1⟩ := sub_fdiv_mul_bounds wz
  constructor
  · rintro ⟨hy0, hy1, hsome⟩
    obtain ⟨ch, hch⟩ := Option.isSome_iff_exists.mp hsome
    unfold ChunkManagerState.SetBlockAt
    rw [if_neg (by omega)]
    dsimp only
    rw [hch]
    dsimp only
    rw [if_neg (by omega), if_neg (by omega)]
    unfold ChunkManagerState.GetBlockAt
    rw [if_neg (by omega)]
    dsimp only
    rw [if_pos rfl]
    dsimp only
    rw [if_neg (by omega), if_neg (by omega)]
    exact chunk_get_set_same ch _ wy _ v hlx0 hlx1 hy0 hy1 hlz0 hlz1
  · intro hcase
    by_cases hy : wy < 0 ∨ wy ≥ (CHUNK_HEIGHT : Int)
    · constructor
      · unfold ChunkManagerState.GetBlockAt
        rw [if_pos hy]
      · unfold ChunkManagerState.SetBlockAt
        rw [if_pos hy]
    · have hnone : st.loadedChunks (Int.fdiv wx (CHUNK_SIZE : Int),
          Int.fdiv wz (CHUNK_SIZE : Int)) = none := by
        rcases hcase with h | h | h
        · exact absurd (Or.inl h) hy
        · exact absurd (Or.inr h) hy
        · exact h
      constructor
      · unfold ChunkManagerState.GetBlockAt
        rw [if_neg hy]
        dsimp only
        rw [hnone]
      · unfold ChunkManagerState.SetBlockAt
        rw [if_neg hy]
        dsimp only
        rw [hnone]

/-- Witness for C6 over a state holding just the fresh all-air chunk at
(0, 0): a write at (5, 70, 5) is observed by the following read. -/
theorem c6_block_access_witness :
    (({ loadedChunks := fun r =>
          if r = ((0 : Int), (0 : Int)) then some (mkChunk 0 0) else none,
        savingQueue := [],
        region := mkRegionStore "world" } :
          ChunkManagerState).SetBlockAt 5 70 5 blockCOBBLESTONE).GetBlockAt
        5 70 5 = blockCOBBLESTONE := by
  exact (c6_block_access _ 5 70 5 blockCOBBLESTONE).1
    ⟨by decide, by decide, rfl⟩

/-! ### Greedy mesher lemmas (C9) -/

theorem scanDown_found (p : Nat → Bool) (t : Nat) (hpt : p t = true) :
    ∀ fuel, t < fuel → (∀ y, t < y → y < fuel → p y = false) →
    scanDown p fuel = some t := by
  intro fuel
  induction fuel with
  | zero => intro h; omega
  | succ f ih =>
      intro ht hforall
      unfold scanDown
      by_cases hf : f = t
      · subst hf
        rw [hpt]
        rfl
      · have hpf : p f = false := hforall f (by omega) (by omega)
        rw [hpf]
        exact ih (by omega) (fun y hy1 hy2 => hforall y hy1 (by omega))

theorem growLoop_eq (cond : Nat → Bool) (b : Nat) :
    ∀ fuel w, w ≤ b → b ≤ w + fuel →
    (∀ j, w ≤ j → j < b → cond j = true) → cond b = false →
    growLoop cond fuel w = b := by
  intro fuel
  induction fuel with
  | zero =>
      intro w h1 h2 _ hb
      have hwb : w = b := by omega
      subst hwb
      rfl
  | succ f ih =>
      intro w h1 h2 hall hb
      unfold growLoop
      by_cases hw : w = b
      · subst hw
        rw [hb]
        rfl
      · have hcw : cond w = true := hall w le_rfl (by omega)
        rw [hcw]
        exact ih (w + 1) (by omega) (by omega)
          (fun j hj1 hj2 => hall j (by omega) hj2) hb

theorem horizPass_of_marked (c : Chunk) (nb : Option NeighborChunks)
    (face : BFace) :
    ∀ (ps : List (Nat × Nat)) (mask : Nat → Nat → Bool)
      (acc : List QuadMesh),
    (∀ p ∈ ps, mask p.1 p.2 = true) →
    horizPass c nb face ps mask acc = acc := by
  intro ps
  induction ps with
  | nil => intro mask acc _; rfl
  | cons p rest ih =>
      intro mask acc hall
      obtain ⟨x, z⟩ := p
      unfold horizPass
      rw [hall (x, z) (List.mem_cons_self _ _)]
      exact ih mask acc (fun q hq => hall q (List.mem_cons_of_mem _ hq))

theorem horizPass_faces (c : Chunk) (nb : Option NeighborChunks)
    (face : BFace) :
    ∀ (ps : List (Nat × Nat)) (mask : Nat → Nat → Bool)
      (acc : List QuadMesh),
    (∀ q ∈ acc, q.face = face) →
    ∀ q ∈ horizPass c nb face ps mask acc, q.face = face := by
  intro ps
  induction ps with
  | nil => intro mask acc hacc; exact hacc
  | cons p rest ih =>
      intro mask acc hacc
      obtain ⟨x, z⟩ := p
      unfold horizPass
      by_cases hm : mask x z = true
      · rw [hm]
        exact ih mask acc hacc
      · rw [Bool.not_eq_true] at hm
        rw [hm]
        cases hcol : columnFaceY c nb face x z with
        | none => exact ih _ _ hacc
        | some y =>
            dsimp only
            by_cases hbt : c.GetBlock ↑x ↑y ↑z = blockAIR
            · rw [if_pos hbt]
              exact ih _ _ hacc
            · rw [if_neg hbt]
              refine ih _ _ ?_
              intro q hq
              rcases List.mem_append.mp hq with hq | hq
              · exact hacc q hq
              · rcases List.mem_singleton.mp hq with rfl
                rfl

theorem vertPass_faces (c : Chunk) (nb : Option NeighborChunks)
    (face : BFace) :
    ∀ (ps : List (Nat × Nat)) (mask : Nat → Nat → Bool)
      (acc : List QuadMesh),
    (∀ q ∈ acc, q.face = face) →
    ∀ q ∈ vertPass c nb face ps mask acc, q.face = face := by
  intro ps
  induction ps with
  | nil => intro mask acc hacc; exact hacc
  | cons p rest ih =>
      intro mask acc hacc
      obtain ⟨i, j⟩ := p
      unfold vertPass
      by_cases hm : mask i j = true
      · rw [hm]
        exact ih mask acc hacc
      · rw [Bool.not_eq_true] at hm
        rw [hm]
        dsimp only
        by_cases hskip : c.GetBlock ↑(vertCoords face i j).1
            ↑(vertCoords face i j).2.1 ↑(vertCoords face i j).2.2 = blockAIR ∨
            c.ShouldRenderFace ↑(vertCoords face i j).1
              ↑(vertCoords face i j).2.1 ↑(vertCoords face i j).2.2 face nb
              = false
        · rw [if_pos hskip]
          exact ih _ _ hacc
        · rw [if_neg hskip]
          refine ih _ _ ?_
          intro q hq
          rcases List.mem_append.mp hq with hq | hq
          · exact hacc q hq
          · rcases List.mem_singleton.mp hq with rfl
            rfl

theorem srf_top_of_air_above (c : Chunk) (nb : Option NeighborChunks)
    (x z : Nat) (hx : x < 16) (hz : z < 16)
    (hcur : c.GetBlock ↑x 64 ↑z = blockGRASS)
    (habove : c.GetBlock ↑x 65 ↑z = blockAIR) :
    c.ShouldRenderFace ↑x 64 ↑z BFace.top nb = true := by
  unfold Chunk.ShouldRenderFace
  dsimp only
  rw [hcur]
  rw [if_neg (by decide)]
  rw [if_neg (by decide)]
  rw [Bool.false_and]
  rw [if_neg (by decide)]
  have hin : (0 ≤ (x : Int) ∧ (x : Int) < (CHUNK_SIZE : Int) ∧
      0 ≤ (64 : Int) + 1 ∧ (64 : Int) + 1 < (CHUNK_HEIGHT : Int) ∧
      0 ≤ (z : Int) ∧ (z : Int) < (CHUNK_SIZE : Int)) := by
    have h16 : (CHUNK_SIZE : Int) = 16 := rfl
    have h256 : (CHUNK_HEIGHT : Int) = 256 := rfl
    omega
  rw [if_pos (decide_eq_true hin)]
  have h65 : ((64 : Int) + 1) = (65 : Int) := by norm_num
  rw [h65, habove]
  decide

set_option maxRecDepth 100000 in
/-- C9. For every chunk whose layer y = 64 is uniformly GRASS and whose
cells above y = 64 are all AIR, and any neighbor configuration (`TOP` faces
never consult the planar neighbors, and nothing sits above), the greedy
mesher emits exactly one TOP-facing quad: the full 16×16 layer at y = 64. -/
theorem c9_uniform_top_layer_single_quad (c : Chunk)
    (nb : Option NeighborChunks)
    (hgrass : ∀ x z : Nat, x < 16 → z < 16 →
      c.GetBlock ↑x 64 ↑z = blockGRASS)
    (hair : ∀ x z : Nat, x < 16 → z < 16 → ∀ y : Nat, 64 < y → y < 256 →
      c.GetBlock ↑x ↑y ↑z = blockAIR) :
    (c.GenerateGreedyMesh nb).filter (fun q => decide (q.face = BFace.top)) =
      [⟨0, 64, 0, 16, 16, blockGRASS, BFace.top⟩] := by
  -- the per-column face level is 64 everywhere
  have hcell64 : ∀ x z : Nat, x < 16 → z < 16 →
      faceCellOk c nb BFace.top x z 64 = true := by
    intro x z hx hz
    unfold faceCellOk
    rw [show c.GetBlock ↑x ↑(64 : Nat) ↑z = blockGRASS from hgrass x z hx hz]
    rw [show c.ShouldRenderFace ↑x ↑(64 : Nat) ↑z BFace.top nb = true from
      srf_top_of_air_above c nb x z hx hz (hgrass x z hx hz)
        (hair x z hx hz 65 (by omega) (by omega))]
    decide
  have hcellAbove : ∀ x z : Nat, x < 16 → z < 16 → ∀ y, 64 < y → y < 256 →
      faceCellOk c nb BFace.top x z y = false := by
    intro x z hx hz y hy1 hy2
    unfold faceCellOk
    rw [hair x z hx hz y hy1 hy2]
    simp
  have hcol : ∀ x z : Nat, x < 16 → z < 16 →
      columnFaceY c nb BFace.top x z = some 64 := by
    intro x z hx hz
    unfold columnFaceY
    exact scanDown_found _ 64 (hcell64 x z hx hz) CHUNK_HEIGHT (by decide)
      (fun y h1 h2 => hcellAbove x z hx hz y h1 h2)
  have hwcond : ∀ j, 1 ≤ j → j < 16 →
      widthCond c nb BFace.top (fun _ _ => false) 0 0 64 blockGRASS j
        = true := by
    intro j _ h2
    unfold widthCond
    rw [hcol (0 + j) 0 (by omega) (by omega)]
    rw [decide_eq_true (show 0 + j < CHUNK_SIZE from show 0 + j < 16 by
      omega)]
    rw [decide_eq_true (show c.GetBlock ↑(0 + j) ↑(64 : Nat) ↑(0 : Nat)
      = blockGRASS from hgrass (0 + j) 0 (by omega) (by omega))]
    rfl
  have hwstop : widthCond c nb BFace.top (fun _ _ => false) 0 0 64
      blockGRASS 16 = false := by
    unfold widthCond
    rw [decide_eq_false (show ¬ (0 + 16 < CHUNK_SIZE) from
      show ¬ (0 + 16 < 16) by omega)]
    rfl
  have hw : growLoop
      (widthCond c nb BFace.top (fun _ _ => false) 0 0 64 blockGRASS)
      CHUNK_SIZE 1 = 16 :=
    growLoop_eq _ 16 CHUNK_SIZE 1 (by decide) (by decide)
      (fun j hj1 hj2 => hwcond j hj1 hj2) hwstop
  have hdcond : ∀ d, 1 ≤ d → d < 16 →
      depthCond c nb BFace.top (fun _ _ => false) 0 0 64 blockGRASS 16 d
        = true := by
    intro d _ h2
    unfold depthCond
    rw [decide_eq_true (show 0 + d < CHUNK_SIZE from show 0 + d < 16 by
      omega)]
    rw [List.all_eq_true.mpr ?_]
    · rfl
    intro k hk
    have hk16 : k < 16 := List.mem_range.mp hk
    rw [hcol (0 + k) (0 + d) (by omega) (by omega)]
    rw [decide_eq_true (show c.GetBlock ↑(0 + k) ↑(64 : Nat) ↑(0 + d)
      = blockGRASS from hgrass (0 + k) (0 + d) (by omega) (by omega))]
    rfl
  have hdstop : depthCond c nb BFace.top (fun _ _ => false) 0 0 64
      blockGRASS 16 16 = false := by
    unfold depthCond
    rw [decide_eq_false (show ¬ (0 + 16 < CHUNK_SIZE) from
      show ¬ (0 + 16 < 16) by omega)]
    rfl
  have hd : growLoop
      (depthCond c nb BFace.top (fun _ _ => false) 0 0 64 blockGRASS 16)
      CHUNK_SIZE 1 = 16 :=
    growLoop_eq _ 16 CHUNK_SIZE 1 (by decide) (by decide)
      (fun d hd1 hd2 => hdcond d hd1 hd2) hdstop
  have htail : ∀ p ∈ chunkPositionsXZ.tail, p.1 < 16 ∧ p.2 < 16 := by
    decide
  have hpass : horizPass c nb BFace.top chunkPositionsXZ
      (fun _ _ => false) [] = [⟨0, 64, 0, 16, 16, blockGRASS, BFace.top⟩]
      := by
    have hbt : c.GetBlock ↑(0 : Nat) ↑(64 : Nat) ↑(0 : Nat) = blockGRASS :=
      hgrass 0 0 (by omega) (by omega)
    rw [show chunkPositionsXZ = ((0, 0) : Nat × Nat) :: chunkPositionsXZ.tail
      from rfl]
    unfold horizPass
    dsimp only
    rw [if_neg (show ¬ (false = true) by decide)]
    rw [hcol 0 0 (by omega) (by omega)]
    dsimp only
    rw [hbt]
    rw [if_neg (show ¬ (blockGRASS = blockAIR) by decide)]
    rw [hw, hd]
    rw [horizPass_of_marked c nb BFace.top _ _ _ ?marked]
    · rfl
    case marked =>
      intro p hp
      obtain ⟨h1, h2⟩ := htail p hp
      unfold markRect
      rw [if_pos (by omega)]
  -- the other five passes contribute no TOP quads
  have hface_filter : ∀ (f : BFace) (l : List QuadMesh),
      (∀ q ∈ l, q.face = f) → f ≠ BFace.top →
      l.filter (fun q => decide (q.face = BFace.top)) = [] := by
    intro f l hl hf
    rw [List.filter_eq_nil_iff]
    intro q hq
    rw [hl q hq]
    simp [hf]
  unfold Chunk.GenerateGreedyMesh Chunk.GenerateQuadsForFace
  dsimp only
  rw [List.filter_append, List.filter_append, List.filter_append,
    List.filter_append, List.filter_append]
  rw [hface_filter BFace.bottom _
    (horizPass_faces c nb BFace.bottom chunkPositionsXZ _ []
      (by intro q hq; cases hq)) (by decide)]
  rw [hface_filter BFace.north _
    (vertPass_faces c nb BFace.north vertPositions _ []
      (by intro q hq; cases hq)) (by decide)]
  rw [hface_filter BFace.south _
    (vertPass_faces c nb BFace.south vertPositions _ []
      (by intro q hq; cases hq)) (by decide)]
  rw [hface_filter BFace.east _
    (vertPass_faces c nb BFace.east vertPositions _ []
      (by intro q hq; cases hq)) (by decide)]
  rw [hface_filter BFace.west _
    (vertPass_faces c nb BFace.west vertPositions _ []
      (by intro q hq; cases hq)) (by decide)]
  rw [hpass]
  rfl

theorem c9Witness_getBlock (x z y : Nat) (hx : x < 16) (hz : z < 16)
    (hy : y < 256) :
    c9WitnessChunk.GetBlock ↑x ↑y ↑z =
      (if y = 64 then blockGRASS else blockAIR) := by
  unfold Chunk.GetBlock
  have h16 : (CHUNK_SIZE : Int) = 16 := rfl
  have h256 : (CHUNK_HEIGHT : Int) = 256 := rfl
  rw [if_neg (by omega)]
  show (if blockIndex (↑x : Int).toNat (↑y : Int).toNat (↑z : Int).toNat
      / 256 = 64 then blockGRASS else blockAIR) = _
  rw [Int.toNat_natCast, Int.toNat_natCast, Int.toNat_natCast]
  unfold blockIndex CHUNK_SIZE
  have hq : (x + z * 16 + y * 16 * 16) / 256 = y := by omega
  rw [hq]

/-- Witness for C9 at the grass-slab chunk and a null neighbor array. -/
theorem c9_uniform_top_layer_witness :
    (c9WitnessChunk.GenerateGreedyMesh none).filter
        (fun q => decide (q.face = BFace.top)) =
      [⟨0, 64, 0, 16, 16, blockGRASS, BFace.top⟩] := by
  apply c9_uniform_top_layer_single_quad
  · intro x z hx hz
    have h := c9Witness_getBlock x z 64 hx hz (by omega)
    simpa using h
  · intro x z hx hz y hy1 hy2
    have h := c9Witness_getBlock x z y hx hz (by omega)
    rw [h, if_neg (by omega)]

/-! ### Chunk write/read locality -/

theorem getBlock_setBlock_ne (c : Chunk) (x y z x' y' z' : Int) (v : Nat)
    (hne : ¬ (x' = x ∧ y' = y ∧ z' = z)) :
    (c.SetBlock x' y' z' v).GetBlock x y z = c.GetBlock x y z := by
  unfold Chunk.SetBlock
  by_cases hw : x' < 0 ∨ x' ≥ (CHUNK_SIZE : Int) ∨ y' < 0 ∨
      y' ≥ (CHUNK_HEIGHT : Int) ∨ z' < 0 ∨ z' ≥ (CHUNK_SIZE : Int)
  · rw [if_pos hw]
  · rw [if_neg hw]
    dsimp only
    by_cases hv : c.blocks (blockIndex x'.toNat y'.toNat z'.toNat) = v
    · rw [if_pos hv]
    · rw [if_neg hv]
      unfold Chunk.GetBlock
      by_cases hr : x < 0 ∨ x ≥ (CHUNK_SIZE : Int) ∨ y < 0 ∨
          y ≥ (CHUNK_HEIGHT : Int) ∨ z < 0 ∨ z ≥ (CHUNK_SIZE : Int)
      · rw [if_pos hr, if_pos hr]
      · rw [if_neg hr, if_neg hr]
        dsimp only
        rw [if_neg ?hidx]
        case hidx =>
          intro hcontra
          apply hne
          push_neg at hw hr
          simp only [blockIndex, CHUNK_SIZE, CHUNK_HEIGHT] at hcontra hw hr
          omega

theorem getBlock_foldl_congr {α : Type} (step : Chunk → α → Chunk)
    (x y z : Int) :
    ∀ (l : List α) (c : Chunk),
    (∀ acc a, a ∈ l → (step acc a).GetBlock x y z = acc.GetBlock x y z) →
    (l.foldl step c).GetBlock x y z = c.GetBlock x y z := by
  intro l
  induction l with
  | nil => intro c _; rfl
  | cons a rest ih =>
      intro c h
      rw [List.foldl_cons]
      rw [ih (step c a) (fun acc b hb => h acc b (List.mem_cons_of_mem _ hb))]
      exact h c a (List.mem_cons_self _ _)

theorem foldl_invariant {α β : Type} (P : β → Prop) (step : β → α → β) :
    ∀ (l : List α) (b : β),
    P b → (∀ acc a, a ∈ l → P acc → P (step acc a)) → P (l.foldl step b) := by
  intro l
  induction l with
  | nil => intro b hb _; exact hb
  | cons a rest ih =>
      intro b hb h
      rw [List.foldl_cons]
      exact ih (step b a) (h b a (List.mem_cons_self _ _) hb)
        (fun acc q hq hacc => h acc q (List.mem_cons_of_mem _ hq) hacc)

theorem foldl_id {α β : Type} (step : β → α → β) :
    ∀ (l : List α) (b : β),
    (∀ acc a, a ∈ l → step acc a = acc) → l.foldl step b = b := by
  intro l
  induction l with
  | nil => intro b _; rfl
  | cons a rest ih =>
      intro b h
      rw [List.foldl_cons, h b a (List.mem_cons_self _ _)]
      exact ih b (fun acc q hq => h acc q (List.mem_cons_of_mem _ hq))

theorem mem_intRangeList (a b y : Int) :
    y ∈ intRangeList a b ↔ a ≤ y ∧ y < b := by
  constructor
  · intro hm
    unfold intRangeList at hm
    obtain ⟨i, hi, hiy⟩ := List.mem_map.mp hm
    have hib : i < (b - a).toNat := List.mem_range.mp hi
    have hiy' : a + (i : Int) = y := hiy
    omega
  · intro ⟨h1, h2⟩
    unfold intRangeList
    refine List.mem_map.mpr ⟨(y - a).toNat,
      List.mem_range.mpr (by omega), ?_⟩
    show a + (((y - a).toNat : Nat) : Int) = y
    omega

theorem nodup_intRangeList (a b : Int) : (intRangeList a b).Nodup := by
  unfold intRangeList
  refine List.Nodup.map ?_ (List.nodup_range _)
  intro i j hij
  dsimp only at hij
  omega

theorem getBlock_foldl_writes_ne (x z : Nat) (val : Int → Nat) (y₀ : Int)
    (l : List Int) (c : Chunk) (hnot : y₀ ∉ l) :
    ((l.foldl (fun acc y => acc.SetBlock ↑x y ↑z (val y)) c)).GetBlock
      ↑x y₀ ↑z = c.GetBlock ↑x y₀ ↑z := by
  apply getBlock_foldl_congr
  intro acc y hy
  apply getBlock_setBlock_ne
  intro ⟨_, hyy, _⟩
  exact hnot (hyy ▸ hy)

theorem getBlock_foldl_writes (x z : Nat) (val : Int → Nat) (y₀ : Int)
    (l : List Int) (c : Chunk) (hx : x < 16) (hz : z < 16)
    (hy0 : 0 ≤ y₀) (hy1 : y₀ < 256) (hmem : y₀ ∈ l) (hnodup : l.Nodup) :
    ((l.foldl (fun acc y => acc.SetBlock ↑x y ↑z (val y)) c)).GetBlock
      ↑x y₀ ↑z = val y₀ := by
  obtain ⟨s, t, rfl⟩ := List.append_of_mem hmem
  have hts : y₀ ∉ t := by
    rcases List.nodup_append.mp hnodup with ⟨_, hnt, _⟩
    exact (List.nodup_cons.mp hnt).1
  rw [List.foldl_append, List.foldl_cons]
  rw [getBlock_foldl_writes_ne x z val y₀ t _ hts]
  apply chunk_get_set_same
  · exact_mod_cast Int.natCast_nonneg x
  · show (x : Int) < ((16 : Nat) : Int)
    exact_mod_cast hx
  · exact hy0
  · show y₀ < ((256 : Nat) : Int)
    exact_mod_cast hy1
  · exact_mod_cast Int.natCast_nonneg z
  · show (z : Int) < ((16 : Nat) : Int)
    exact_mod_cast hz

/-- C10. The out-of-bounds read path of `Chunk::Deserialize` is reachable:
on the 8-byte input `CHK\x01 00 00 00 00` the size guard (`size < 8`) and
the magic test pass, and the 4-byte read of the z coordinate at offset 8
falls outside the buffer — contradicting the claim that every byte offset
accessed stays below `data.size()`. -/
theorem c10_deserialize_oob_read_reachable :
    (mkChunk 0 0).Deserialize [67, 72, 75, 1, 0, 0, 0, 0] =
      DeserializeResult.oobRead := by
  rfl

/-! ### Terrain pass: per-cell profile -/

theorem getBlock_markGenerated (c : Chunk) (x y z : Int) :
    ({ c with isGenerated := true, isDirty := true } : Chunk).GetBlock x y z
      = c.GetBlock x y z := rfl

theorem getBlock_eq_blocks (c : Chunk) (x y z : Nat) (hx : x < 16)
    (hy : y < 256) (hz : z < 16) :
    c.GetBlock ↑x ↑y ↑z = c.blocks (blockIndex x y z) := by
  have h16 : (CHUNK_SIZE : Int) = 16 := by decide
  have h256 : (CHUNK_HEIGHT : Int) = 256 := by decide
  unfold Chunk.GetBlock
  rw [h16, h256]
  rw [if_neg (by omega)]
  simp

theorem mem_chunkPositionsXZ (p : Nat × Nat) :
    p ∈ chunkPositionsXZ ↔ p.1 < 16 ∧ p.2 < 16 := by
  obtain ⟨x, z⟩ := p
  simp only [chunkPositionsXZ, List.mem_flatMap, List.mem_map,
    List.mem_range]
  constructor
  · rintro ⟨a, ha, b, hb, heq⟩
    cases heq
    exact ⟨ha, hb⟩
  · intro ⟨h1, h2⟩
    exact ⟨x, h1, z, h2, rfl⟩

theorem nodup_chunkPositionsXZ : chunkPositionsXZ.Nodup := by
  refine List.nodup_flatMap.mpr ⟨?_, ?_⟩
  · intro x _
    refine List.Nodup.map ?_ (List.nodup_range _)
    intro a b h
    exact (Prod.ext_iff.mp h).2
  · refine (List.nodup_range _).imp ?_
    intro a b hne p hpa hpb
    obtain ⟨za, _, rfl⟩ := List.mem_map.mp hpa
    obtain ⟨zb, _, hzb⟩ := List.mem_map.mp hpb
    exact hne ((Prod.ext_iff.mp hzb).1.symm)

theorem getHeightAt_bounds (env : GenEnv) (seed : Int) (wx wz : ℚ) :
    1 ≤ GetHeightAt env seed wx wz ∧ GetHeightAt env seed wx wz ≤ 246 := by
  unfold GetHeightAt
  have h : ((CHUNK_HEIGHT : Nat) : Int) - 10 = 246 := by decide
  rw [h]
  generalize ratTrunc (GetTerrainHeight (GetContinentalness env seed wx wz)
    (GetErosion env seed wx wz) (GetPeaksValleys env seed wx wz)) = t
  omega

theorem getBlock_foldl_column_other (x z x' z' : Nat) (y₀ : Int)
    (val : Int → Nat) (hne : ¬(x' = x ∧ z' = z)) (l : List Int)
    (c : Chunk) :
    (l.foldl (fun acc y => acc.SetBlock ↑x' y ↑z' (val y)) c).GetBlock
      ↑x y₀ ↑z = c.GetBlock ↑x y₀ ↑z := by
  apply getBlock_foldl_congr
  intro acc a _
  apply getBlock_setBlock_ne
  intro ⟨h1, _, h3⟩
  exact hne ⟨Nat.cast_inj.mp h1, Nat.cast_inj.mp h3⟩

theorem genColumn_own (env : GenEnv) (seed : Int) (coord : Int × Int)
    (c : Chunk) (x z y₀ : Nat) (hx : x < 16) (hz : z < 16)
    (hy : y₀ < 256) :
    (genColumn env seed coord c x z).GetBlock ↑x ↑y₀ ↑z =
      columnValue env seed coord x z y₀ := by
  unfold genColumn columnValue
  dsimp only
  rw [show ((CHUNK_HEIGHT : Nat) : Int) = 256 from by decide]
  obtain ⟨hh1, hh2⟩ :=
    getHeightAt_bounds env seed (worldQ coord.1 x) (worldQ coord.2 z)
  set h := GetHeightAt env seed (worldQ coord.1 x) (worldQ coord.2 z)
    with hdef
  have hy0 : (0 : Int) ≤ ↑y₀ := Int.natCast_nonneg y₀
  have hy1 : (↑y₀ : Int) < 256 := by exact_mod_cast hy
  split
  next hcase1 =>
    refine ((getBlock_foldl_writes_ne x z _ ↑y₀ _ _ ?_).trans
      ((getBlock_foldl_writes_ne x z _ ↑y₀ _ _ ?_).trans
        (getBlock_foldl_writes x z _ ↑y₀ _ _ hx hz hy0 hy1 ?_
          (nodup_intRangeList _ _))))
    · rw [mem_intRangeList]
      omega
    · rw [mem_intRangeList]
      omega
    · rw [mem_intRangeList]
      omega
  next hcase1 =>
    split
    next hcase2 =>
      refine ((getBlock_foldl_writes_ne x z _ ↑y₀ _ _ ?_).trans
        (getBlock_foldl_writes x z _ ↑y₀ _ _ hx hz hy0 hy1 ?_
          (nodup_intRangeList _ _)))
      · rw [mem_intRangeList]
        omega
      · rw [mem_intRangeList]
        omega
    next hcase2 =>
      refine getBlock_foldl_writes x z _ ↑y₀ _ _ hx hz hy0 hy1 ?_
        (nodup_intRangeList _ _)
      rw [mem_intRangeList]
      omega

theorem genColumn_other (env : GenEnv) (seed : Int) (coord : Int × Int)
    (c : Chunk) (x z x' z' : Nat) (y₀ : Int)
    (hne : ¬(x' = x ∧ z' = z)) :
    (genColumn env seed coord c x' z').GetBlock ↑x y₀ ↑z =
      c.GetBlock ↑x y₀ ↑z := by
  unfold genColumn
  dsimp only
  exact ((getBlock_foldl_column_other x z x' z' y₀ _ hne _ _).trans
    ((getBlock_foldl_column_other x z x' z' y₀ _ hne _ _).trans
      (getBlock_foldl_column_other x z x' z' y₀ _ hne _ _)))

theorem terrain_getBlock (env : GenEnv) (seed : Int) (coord : Int × Int)
    (c : Chunk) (x z y₀ : Nat) (hx : x < 16) (hz : z < 16)
    (hy : y₀ < 256) :
    (GenerateTerrainWithDensity env seed coord c).GetBlock ↑x ↑y₀ ↑z =
      columnValue env seed coord x z y₀ := by
  unfold GenerateTerrainWithDensity
  have hmem : (x, z) ∈ chunkPositionsXZ :=
    (mem_chunkPositionsXZ (x, z)).mpr ⟨hx, hz⟩
  obtain ⟨s, t, hsplit⟩ := List.append_of_mem hmem
  have hnd := nodup_chunkPositionsXZ
  rw [hsplit] at hnd
  have hnt : (x, z) ∉ t := by
    rcases List.nodup_append.mp hnd with ⟨_, hj, _⟩
    exact (List.nodup_cons.mp hj).1
  rw [hsplit, List.foldl_append, List.foldl_cons]
  have hpre : ∀ (acc : Chunk) (p : Nat × Nat), p ∈ t →
      (genColumn env seed coord acc p.1 p.2).GetBlock ↑x ↑y₀ ↑z =
        acc.GetBlock ↑x ↑y₀ ↑z := by
    intro acc p hp
    obtain ⟨a, b⟩ := p
    refine genColumn_other env seed coord acc x z a b ↑y₀ ?_
    intro ⟨h1, h2⟩
    subst h1
    subst h2
    exact hnt hp
  rw [getBlock_foldl_congr
    (fun acc p => genColumn env seed coord acc p.1 p.2) ↑x ↑y₀ ↑z t _ hpre]
  exact genColumn_own env seed coord _ x z y₀ hx hz hy

/-! ### Later generator passes leave the bottom cell alone -/

theorem cavePositions_y_pos (p : Nat × Nat × Nat)
    (hp : p ∈ cavePositions) : 1 ≤ p.2.2 := by
  simp only [cavePositions, List.mem_flatMap, List.mem_map,
    List.mem_range] at hp
  obtain ⟨a, _, b, _, k, _, heq⟩ := hp
  subst heq
  show 1 ≤ k + 1
  omega

theorem orePositions_y_pos (p : Nat × Nat × Nat)
    (hp : p ∈ orePositions) : 1 ≤ p.2.2 := by
  simp only [orePositions, List.mem_flatMap, List.mem_map,
    List.mem_range] at hp
  obtain ⟨a, _, b, _, k, _, heq⟩ := hp
  subst heq
  show 1 ≤ k + 1
  omega

theorem caves_getBlock_y0 (env : GenEnv) (seed : Int) (coord : Int × Int)
    (c : Chunk) (x z : Nat) :
    (GenerateCaves env seed coord c).GetBlock ↑x 0 ↑z =
      c.GetBlock ↑x 0 ↑z := by
  unfold GenerateCaves
  apply getBlock_foldl_congr
  intro acc p hp
  have h1 := cavePositions_y_pos p hp
  split
  · split
    · apply getBlock_setBlock_ne
      intro ⟨_, h2, _⟩
      have : p.2.2 = 0 := by exact_mod_cast h2
      omega
    · rfl
  · rfl

theorem ores_getBlock_y0 (env : GenEnv) (seed : Int) (coord : Int × Int)
    (c : Chunk) (x z : Nat) :
    (GenerateOres env seed coord c).GetBlock ↑x 0 ↑z =
      c.GetBlock ↑x 0 ↑z := by
  unfold GenerateOres
  apply getBlock_foldl_congr
  intro acc p hp
  have h1 := orePositions_y_pos p hp
  split
  · split
    · apply getBlock_setBlock_ne
      intro ⟨_, h2, _⟩
      have : p.2.2 = 0 := by exact_mod_cast h2
      omega
    · rfl
  · rfl

theorem decorations_getBlock_y0 (env : GenEnv) (seed : Int)
    (coord : Int × Int) (c : Chunk) (x z : Nat) (v : Nat)
    (hv : v ≠ blockDIRT) (h0 : c.GetBlock ↑x 0 ↑z = v) :
    (ApplySurfaceDecorations env seed coord c).GetBlock ↑x 0 ↑z = v := by
  unfold ApplySurfaceDecorations
  refine foldl_invariant (fun ch => ch.GetBlock ↑x 0 ↑z = v)
    (fun acc p => decorateColumn env seed coord acc p.1 p.2)
    chunkPositionsXZ c h0 ?_
  intro acc p _ hacc
  show (decorateColumn env seed coord acc p.1 p.2).GetBlock ↑x 0 ↑z = v
  unfold decorateColumn
  cases hs : findSurfaceY acc p.1 p.2 with
  | none => exact hacc
  | some sh =>
    show (if sh < CHUNK_HEIGHT - 1 then
        PlaceVegetation acc p.1 p.2 sh
          (GetBiome env seed (worldQ coord.1 p.1) (worldQ coord.2 p.2))
      else acc).GetBlock ↑x 0 ↑z = v
    split
    · unfold PlaceVegetation
      split
      next hguard =>
        rw [getBlock_setBlock_ne]
        · exact hacc
        · intro ⟨h1, h2, h3⟩
          have hg1 := hguard.1
          rw [h1, h2, h3] at hg1
          exact hv (hacc.symm.trans hg1)
      next => exact hacc
    · exact hacc

theorem placeTree_getBlock_low (env : GenEnv) (c : Chunk) (tx tz g : Nat)
    (biome : Biome) (r : Nat) (x z : Nat) (y₀ : Int)
    (hy : y₀ < 1 + (g : Int)) :
    (PlaceTree env c tx tz g biome r).1.GetBlock ↑x y₀ ↑z =
      c.GetBlock ↑x y₀ ↑z := by
  unfold PlaceTree
  split
  · rfl
  · dsimp only
    apply getBlock_foldl_congr
    intro acc k _
    split
    · apply getBlock_setBlock_ne
      intro ⟨_, h2, _⟩
      have : ((g + (k + 1) : Nat) : Int) = y₀ := h2
      omega
    · rfl

theorem structureSiteStep_getBlock_low (env : GenEnv) (seed : Int)
    (coord : Int × Int) (st : Chunk × Nat) (p : Nat × Nat) (x z : Nat)
    (y₀ : Int) (hy : y₀ < 65) :
    (structureSiteStep env seed coord st p).1.GetBlock ↑x y₀ ↑z =
      st.1.GetBlock ↑x y₀ ↑z := by
  unfold structureSiteStep
  cases hs : findSurfaceY st.1 p.1 p.2 with
  | none => rfl
  | some sh =>
    show (if seaLevel ≤ (sh : Int) ∧
          (sh : Int) < (CHUNK_HEIGHT : Int) - 10 then
        let biome := GetBiome env seed (worldQ coord.1 p.1)
          (worldQ coord.2 p.2)
        let u := env.uniform01 (env.rngStream st.2)
        if u < 0.1 then PlaceTree env st.1 p.1 p.2 sh biome (st.2 + 1)
        else (st.1, st.2 + 1)
      else st).1.GetBlock ↑x y₀ ↑z = st.1.GetBlock ↑x y₀ ↑z
    split
    next hg =>
      dsimp only
      split
      · apply placeTree_getBlock_low
        have h64 : (64 : Int) ≤ (sh : Int) := hg.1
        omega
      · rfl
    next => rfl

theorem structures_getBlock_low (env : GenEnv) (seed : Int)
    (coord : Int × Int) (c : Chunk) (r : Nat) (x z : Nat) (y₀ : Int)
    (hy : y₀ < 65) :
    (GenerateStructures env seed coord c r).1.GetBlock ↑x y₀ ↑z =
      c.GetBlock ↑x y₀ ↑z := by
  unfold GenerateStructures
  refine foldl_invariant
    (fun st => st.1.GetBlock ↑x y₀ ↑z = c.GetBlock ↑x y₀ ↑z)
    (structureSiteStep env seed coord) treeSites (c, r) rfl ?_
  intro acc p _ hacc
  rw [structureSiteStep_getBlock_low env seed coord acc p x z y₀ hy]
  exact hacc

/-- The bottom cell of a fully generated chunk is whatever the terrain
pass left there, provided that value is not dirt (so the surface-decoration
pass cannot touch it): the cave and ore passes write only at heights 1 and
above, and trees only above sea level. -/
theorem generateChunkM_getBlock_y0 (env : GenEnv) (seed : Int) (c : Chunk)
    (r : Nat) (x z : Nat) (hx : x < 16) (hz : z < 16) (v : Nat)
    (hv : v ≠ blockDIRT)
    (hcv : columnValue env seed (c.coordX, c.coordZ) x z 0 = v) :
    (GenerateChunkM env seed c r).1.GetBlock ↑x 0 ↑z = v := by
  unfold GenerateChunkM
  dsimp only
  rw [getBlock_markGenerated]
  rw [structures_getBlock_low env seed (c.coordX, c.coordZ) _ r x z 0
    (by norm_num)]
  rw [ores_getBlock_y0 env seed (c.coordX, c.coordZ) _ x z]
  rw [caves_getBlock_y0 env seed (c.coordX, c.coordZ) _ x z]
  apply decorations_getBlock_y0 env seed (c.coordX, c.coordZ) _ x z v hv
  have h := terrain_getBlock env seed (c.coordX, c.coordZ) c x z 0 hx hz
    (by decide)
  rw [Nat.cast_zero] at h
  rw [h, hcv]

/-! ### Spline and environment evaluations -/

theorem erosionSpline_at_zero : EvaluateSpline erosionSpline 0 = 0 := by
  norm_num [EvaluateSpline, evalSplinePairs, erosionSpline, clampQ, lerpQ,
    smoothStepQ, min_def, max_def, List.headD, List.getLastD]

theorem peaksValleysSpline_at_zero :
    EvaluateSpline peaksValleysSpline 0 = 0 := by
  norm_num [EvaluateSpline, evalSplinePairs, peaksValleysSpline, clampQ,
    lerpQ, smoothStepQ, min_def, max_def, List.headD, List.getLastD]

theorem continentalSpline_at_tenth :
    EvaluateSpline continentalSpline (1 / 10) = 70 := by
  norm_num [EvaluateSpline, evalSplinePairs, continentalSpline, clampQ,
    lerpQ, smoothStepQ, min_def, max_def, List.headD, List.getLastD]

theorem continentalSpline_at_negone :
    EvaluateSpline continentalSpline (-1) = 30 := by
  norm_num [EvaluateSpline, evalSplinePairs, continentalSpline, clampQ,
    lerpQ, smoothStepQ, min_def, max_def, List.headD, List.getLastD]

theorem envForest_c (wx wz : ℚ) :
    GetContinentalness envForest 42 wx wz = 1 / 10 := by
  show (if (42 : Int) = 42 then (1 : ℚ) / 10 else 0) = 1 / 10
  rw [if_pos rfl]

theorem envForest_e (wx wz : ℚ) : GetErosion envForest 42 wx wz = 0 := by
  show (if (42 : Int) + 1000 = 42 then (1 : ℚ) / 10 else 0) = 0
  rw [if_neg (by decide)]

theorem envForest_pv (wx wz : ℚ) :
    GetPeaksValleys envForest 42 wx wz = 0 := by
  show (if (42 : Int) + 2000 = 42 then (1 : ℚ) / 10 else 0) = 0
  rw [if_neg (by decide)]

theorem envForest_density (s : Int) (a b c : ℚ) :
    GetDensity envForest s a b c = 0 := rfl

theorem envForest_height (wx wz : ℚ) :
    GetHeightAt envForest 42 wx wz = 70 := by
  unfold GetHeightAt GetTerrainHeight
  rw [envForest_c, envForest_e, envForest_pv]
  rw [continentalSpline_at_tenth, erosionSpline_at_zero,
    peaksValleysSpline_at_zero]
  norm_num [ratTrunc, CHUNK_HEIGHT, min_def, max_def]

theorem envForest_biome (wx wz : ℚ) :
    GetBiome envForest 42 wx wz = Biome.forest := by
  unfold GetBiome
  rw [envForest_height]
  have ht : envForest.fbm2D 3 (wx * 0.003) (wz * 0.003)
      ((42 : Int) + 3000) = 0 := by
    show (if (42 : Int) + 3000 = 42 then (1 : ℚ) / 10 else 0) = 0
    rw [if_neg (by decide)]
  have hm : envForest.fbm2D 3 (wx * 0.003) (wz * 0.003)
      ((42 : Int) + 4000) = 0 := by
    show (if (42 : Int) + 4000 = 42 then (1 : ℚ) / 10 else 0) = 0
    rw [if_neg (by decide)]
  rw [ht, hm]
  unfold DetermineBiome
  rw [if_neg (by decide), if_neg (by decide), if_neg (by norm_num),
    if_neg (by norm_num), if_neg (by norm_num), if_pos (by norm_num)]

theorem envLow_c (wx wz : ℚ) :
    GetContinentalness envLow 42 wx wz = -1 := by
  show (if (42 : Int) = 42 then (-1 : ℚ) else 0) = -1
  rw [if_pos rfl]

theorem envLow_e (wx wz : ℚ) : GetErosion envLow 42 wx wz = 0 := by
  show (if (42 : Int) + 1000 = 42 then (-1 : ℚ) else 0) = 0
  rw [if_neg (by decide)]

theorem envLow_pv (wx wz : ℚ) : GetPeaksValleys envLow 42 wx wz = 0 := by
  show (if (42 : Int) + 2000 = 42 then (-1 : ℚ) else 0) = 0
  rw [if_neg (by decide)]

theorem envLow_density (s : Int) (a b c : ℚ) :
    GetDensity envLow s a b c = 0 := rfl

theorem envLow_height (wx wz : ℚ) : GetHeightAt envLow 42 wx wz = 30 := by
  unfold GetHeightAt GetTerrainHeight
  rw [envLow_c, envLow_e, envLow_pv]
  rw [continentalSpline_at_negone, erosionSpline_at_zero,
    peaksValleysSpline_at_zero]
  norm_num [ratTrunc, CHUNK_HEIGHT, min_def, max_def]

theorem envLow_biome (wx wz : ℚ) :
    GetBiome envLow 42 wx wz = Biome.ocean := by
  unfold GetBiome
  rw [envLow_height]
  unfold DetermineBiome
  rw [if_pos (by decide)]

theorem envLow_columnValue_y0 (coord : Int × Int) (x z : Nat) :
    columnValue envLow 42 coord x z 0 = blockSTONE := by
  unfold columnValue
  dsimp only
  rw [Nat.cast_zero, envLow_height, envLow_biome]
  split
  next =>
    unfold terrainBlockAt
    split
    next => decide
    next hnp =>
      exfalso
      apply hnp
      unfold terrainDensityValue
      dsimp only
      rw [envLow_density]
      split
      next =>
        split
        next => exact lt_of_lt_of_le (by norm_num) (le_max_right _ _)
        next h2 => exact absurd (by decide) h2
      next h1 => exact absurd (by decide) h1
  next hcond => exact absurd ⟨by decide, by decide⟩ hcond

/-- C8. Amended bedrock property: for every noise environment, seed, start
grid and column (x, z) whose surface height is strictly above 30, the fully
generated chunk has BEDROCK at the column's bottom cell (y = 0).  When the
surface height is 30 or less the below-window fill loop `for (y = 0; y <
minY; y++)` is empty and y = 0 is filled by the density branch instead —
see the counterexample — so the unconditional claim fails and the
height-above-30 hypothesis is exactly the condition under which the code
writes bedrock. -/
theorem c8_bedrock_amended (env : GenEnv) (seed : Int) (c : Chunk)
    (r : Nat) (x z : Nat) (hx : x < 16) (hz : z < 16)
    (hh : 30 < GetHeightAt env seed (worldQ c.coordX x)
      (worldQ c.coordZ z)) :
    (GenerateChunkM env seed c r).1.GetBlock ↑x 0 ↑z = blockBEDROCK := by
  apply generateChunkM_getBlock_y0 env seed c r x z hx hz blockBEDROCK
    (by decide)
  unfold columnValue
  dsimp only
  rw [Nat.cast_zero]
  set h := GetHeightAt env seed (worldQ c.coordX x) (worldQ c.coordZ z)
    with hdef
  split
  next hc =>
    exfalso
    have := hc.1
    omega
  next hc =>
    split
    next => rw [if_pos rfl]
    next hc2 =>
      exfalso
      omega

/-- C8 witness: in the forest environment every column has surface height
70 > 30, and the fully generated chunk indeed has bedrock at the bottom
cell of column (0, 0). -/
theorem c8_bedrock_amended_witness :
    30 < GetHeightAt envForest 42 (worldQ (mkChunk 0 0).coordX 0)
        (worldQ (mkChunk 0 0).coordZ 0) ∧
    (GenerateChunkM envForest 42 (mkChunk 0 0) 0).1.GetBlock ↑(0 : Nat) 0
      ↑(0 : Nat) = blockBEDROCK := by
  have hh : 30 < GetHeightAt envForest 42 (worldQ (mkChunk 0 0).coordX 0)
      (worldQ (mkChunk 0 0).coordZ 0) := by
    rw [envForest_height]
    decide
  exact ⟨hh, c8_bedrock_amended envForest 42 (mkChunk 0 0) 0 0 0
    (by decide) (by decide) hh⟩

/-- C8 counterexample: with continentalness -1 (inside the noise range)
every column has surface height 30, the below-window fill loop is empty,
and the bottom cell of the fully generated chunk is STONE, not BEDROCK —
refuting the claim for columns whose surface height is 30 or less. -/
theorem c8_bedrock_counterexample :
    (GenerateChunkM envLow 42 (mkChunk 0 0) 0).1.GetBlock 0 0 0 =
      blockSTONE ∧ blockSTONE ≠ blockBEDROCK := by
  constructor
  · show (GenerateChunkM envLow 42 (mkChunk 0 0) 0).1.GetBlock ↑(0 : Nat) 0
      ↑(0 : Nat) = blockSTONE
    exact generateChunkM_getBlock_y0 envLow 42 (mkChunk 0 0) 0 0 0
      (by decide) (by decide) blockSTONE (by decide)
      (envLow_columnValue_y0 _ 0 0)
  · decide

/-! ### The flat-at-70 forest world of `envForest` -/

theorem mkChunk_coordX (cx cz : Int) : (mkChunk cx cz).coordX = cx := rfl

theorem mkChunk_coordZ (cx cz : Int) : (mkChunk cx cz).coordZ = cz := rfl

theorem terrainBlockAt_air_above (env : GenEnv) (seed : Int) (wx wz : ℚ)
    (biome : Biome) (h y : Int) (hy : h ≤ y)
    (hd : GetDensity env seed wx (y : ℚ) wz = 0) :
    terrainBlockAt env seed wx wz h biome y = blockAIR := by
  have htdv : terrainDensityValue env seed wx wz h y =
      0 - (1 - clampQ (|((y - h : Int) : ℚ)| / 20) 0 1) * 0.8 := by
    unfold terrainDensityValue
    dsimp only
    rw [if_neg (show ¬ y < h by omega), hd]
  unfold terrainBlockAt
  rw [htdv]
  split
  next hpos =>
    exfalso
    have h1 : clampQ (|((y - h : Int) : ℚ)| / 20) 0 1 ≤ 1 :=
      max_le (by norm_num) (min_le_right _ _)
    have h2 : (0 : ℚ) ≤
        (1 - clampQ (|((y - h : Int) : ℚ)| / 20) 0 1) * 0.8 :=
      mul_nonneg (by linarith) (by norm_num)
    linarith
  next => rfl

theorem envForest_columnValue_air (coord : Int × Int) (x z y₀ : Nat)
    (h70 : 70 ≤ y₀) (h256 : y₀ < 256) :
    columnValue envForest 42 coord x z y₀ = blockAIR := by
  unfold columnValue
  dsimp only
  rw [envForest_height]
  split
  next =>
    exact terrainBlockAt_air_above envForest 42 _ _ _ 70 ↑y₀
      (by exact_mod_cast h70) (envForest_density _ _ _ _)
  next =>
    split
    next h2 =>
      exfalso
      omega
    next => rfl

theorem envForest_columnValue_69 (coord : Int × Int) (x z : Nat) :
    columnValue envForest 42 coord x z 69 = blockDIRT := by
  unfold columnValue
  dsimp only
  rw [envForest_height, envForest_biome]
  split
  next =>
    unfold terrainBlockAt
    split
    next => decide
    next hnp =>
      exfalso
      apply hnp
      unfold terrainDensityValue
      dsimp only
      rw [envForest_density]
      split
      next =>
        split
        next h2 => exact absurd h2 (by decide)
        next => norm_num [clampQ, min_def, max_def]
      next h1 => exact absurd (by decide) h1
  next hcond => exact absurd ⟨by decide, by decide⟩ hcond

theorem findSurfaceY_of_site (c : Chunk) (x z : Nat)
    (hs : siteProfile c x z) : findSurfaceY c x z = some 69 := by
  obtain ⟨h69, habove⟩ := hs
  unfold findSurfaceY
  refine scanDown_found _ 69 ?_ CHUNK_HEIGHT (by decide) ?_
  · show decide (c.GetBlock ↑x ((69 : Nat) : Int) ↑z ≠ blockAIR) = true
    rcases h69 with h | h <;> rw [h] <;> decide
  · intro y h1 h2
    show decide (c.GetBlock ↑x ↑y ↑z ≠ blockAIR) = false
    rw [habove y (by omega) h2]
    decide

theorem decorations_profile (env : GenEnv) (seed : Int) (coord : Int × Int)
    (c : Chunk) (hP : colProfile c) :
    colProfile (ApplySurfaceDecorations env seed coord c) := by
  unfold ApplySurfaceDecorations
  refine foldl_invariant colProfile _ chunkPositionsXZ c hP ?_
  intro acc p hp hacc
  have hb := (mem_chunkPositionsXZ p).mp hp
  show colProfile (decorateColumn env seed coord acc p.1 p.2)
  unfold decorateColumn
  rw [findSurfaceY_of_site acc p.1 p.2 (hacc p.1 p.2 hb.1 hb.2)]
  show colProfile (if 69 < CHUNK_HEIGHT - 1 then
      PlaceVegetation acc p.1 p.2 69
        (GetBiome env seed (worldQ coord.1 p.1) (worldQ coord.2 p.2))
    else acc)
  rw [if_pos (by decide)]
  unfold PlaceVegetation
  split
  next hguard =>
    intro a b ha hb2
    refine ⟨?_, ?_⟩
    · by_cases hcol : p.1 = a ∧ p.2 = b
      · obtain ⟨h1, h2⟩ := hcol
        subst h1
        subst h2
        right
        refine chunk_get_set_same acc ↑p.1 ((69 : Nat) : Int) ↑p.2
          blockGRASS (Int.natCast_nonneg p.1) ?_ (by decide) (by decide)
          (Int.natCast_nonneg p.2) ?_
        · show (↑p.1 : Int) < ((16 : Nat) : Int)
          exact_mod_cast hb.1
        · show (↑p.2 : Int) < ((16 : Nat) : Int)
          exact_mod_cast hb.2
      · rw [getBlock_setBlock_ne]
        · exact (hacc a b ha hb2).1
        · intro ⟨h1, _, h3⟩
          exact hcol ⟨Nat.cast_inj.mp h1, Nat.cast_inj.mp h3⟩
    · intro y hy1 hy2
      rw [getBlock_setBlock_ne]
      · exact (hacc a b ha hb2).2 y hy1 hy2
      · intro ⟨_, h2, _⟩
        have h69y : (69 : Nat) = y := Nat.cast_inj.mp h2
        omega
  next => exact hacc

theorem envForest_cave_false (seed : Int) (qx qy qz : ℚ) :
    ShouldGenerateCave envForest seed qx qy qz = false := by
  unfold ShouldGenerateCave
  rw [decide_eq_false_iff_not]
  intro ⟨h1, _⟩
  have hzero : envForest.ridged3D 3 (qx * 0.02) (qy * 0.02) (qz * 0.02)
      (seed + 6000) = 0 := rfl
  rw [hzero] at h1
  norm_num [caveThreshold] at h1

theorem envForest_ore_false (seed : Int) (qx qy qz : ℚ) :
    ShouldGenerateOre envForest seed qx qy qz = false := by
  unfold ShouldGenerateOre
  rw [decide_eq_false_iff_not]
  intro h1
  have hzero : envForest.cellular3D (qx * 0.1) (qy * 0.1) (qz * 0.1)
      (seed + 8000) = 0 := rfl
  rw [hzero] at h1
  norm_num at h1

theorem envForest_caves_id (seed : Int) (coord : Int × Int) (c : Chunk) :
    GenerateCaves envForest seed coord c = c := by
  unfold GenerateCaves
  apply foldl_id
  intro acc p _
  rw [envForest_cave_false]
  exact if_neg (by decide)

theorem envForest_ores_id (seed : Int) (coord : Int × Int) (c : Chunk) :
    GenerateOres envForest seed coord c = c := by
  unfold GenerateOres
  apply foldl_id
  intro acc p _
  rw [envForest_ore_false]
  exact if_neg (by decide)

theorem placeTree_snd (env : GenEnv) (c : Chunk) (tx tz g : Nat)
    (biome : Biome) (r : Nat)
    (hb : ¬(biome = Biome.desert ∨ biome = Biome.frozenPeaks ∨
      biome = Biome.ocean)) :
    (PlaceTree env c tx tz g biome r).2 = r + 1 := by
  unfold PlaceTree
  rw [if_neg hb]

theorem placeTree_getBlock_other (env : GenEnv) (c : Chunk) (tx tz g : Nat)
    (biome : Biome) (r : Nat) (x z : Nat) (y : Int)
    (hne : ¬(tx = x ∧ tz = z)) :
    (PlaceTree env c tx tz g biome r).1.GetBlock ↑x y ↑z =
      c.GetBlock ↑x y ↑z := by
  unfold PlaceTree
  split
  · rfl
  · dsimp only
    apply getBlock_foldl_congr
    intro acc k _
    split
    · apply getBlock_setBlock_ne
      intro ⟨h1, _, h3⟩
      exact hne ⟨Nat.cast_inj.mp h1, Nat.cast_inj.mp h3⟩
    · rfl

theorem placeTree_getBlock_first (env : GenEnv) (c : Chunk) (tx tz g : Nat)
    (biome : Biome) (r : Nat)
    (hb : ¬(biome = Biome.desert ∨ biome = Biome.frozenPeaks ∨
      biome = Biome.ocean))
    (htx : tx < 16) (htz : tz < 16) (hg : g + 1 < 256) :
    (PlaceTree env c tx tz g biome r).1.GetBlock ↑tx ↑(g + 1) ↑tz =
      blockWOOD := by
  unfold PlaceTree
  rw [if_neg hb]
  dsimp only
  set th := 4 + env.rngStream r % 3 with hth
  obtain ⟨m, hm⟩ : ∃ m, th = m + 1 := ⟨th - 1, by omega⟩
  rw [hm, List.range_succ_eq_map, List.foldl_cons]
  refine Eq.trans (getBlock_foldl_congr _ ↑tx ↑(g + 1) ↑tz _ _ ?_) ?_
  · intro acc k hk
    obtain ⟨j, _, rfl⟩ := List.mem_map.mp hk
    split
    · apply getBlock_setBlock_ne
      intro ⟨_, h2, _⟩
      have hcast : g + (j.succ + 1) = g + 1 := Nat.cast_inj.mp h2
      omega
    · rfl
  · show (if g + (0 + 1) < CHUNK_HEIGHT then
        c.SetBlock ↑tx ↑(g + (0 + 1)) ↑tz blockWOOD else c).GetBlock
        ↑tx ↑(g + 1) ↑tz = blockWOOD
    rw [if_pos (show g + (0 + 1) < CHUNK_HEIGHT from by
      show g + (0 + 1) < 256
      omega)]
    refine chunk_get_set_same c ↑tx ↑(g + 1) ↑tz blockWOOD
      (Int.natCast_nonneg tx) ?_ (Int.natCast_nonneg (g + 1)) ?_
      (Int.natCast_nonneg tz) ?_
    · show (↑tx : Int) < ((16 : Nat) : Int)
      exact_mod_cast htx
    · show (↑(g + 1) : Int) < ((256 : Nat) : Int)
      exact_mod_cast hg
    · show (↑tz : Int) < ((16 : Nat) : Int)
      exact_mod_cast htz

theorem envForest_first_site (coord : Int × Int) (c : Chunk)
    (hs : siteProfile c 2 2) :
    structureSiteStep envForest 42 coord (c, 0) (2, 2) =
      PlaceTree envForest c 2 2 69 Biome.forest 1 := by
  unfold structureSiteStep
  dsimp only
  rw [findSurfaceY_of_site c 2 2 hs]
  show (if seaLevel ≤ ((69 : Nat) : Int) ∧
        ((69 : Nat) : Int) < (CHUNK_HEIGHT : Int) - 10 then
      let biome := GetBiome envForest 42 (worldQ coord.1 2)
        (worldQ coord.2 2)
      let u := envForest.uniform01 (envForest.rngStream 0)
      if u < 0.1 then PlaceTree envForest c 2 2 69 biome (0 + 1)
      else (c, 0 + 1)
    else (c, 0)) = PlaceTree envForest c 2 2 69 Biome.forest 1
  rw [if_pos (by decide)]
  dsimp only
  rw [if_pos (show envForest.uniform01 (envForest.rngStream 0) < 0.1 from
    by
      show (0 : ℚ) < 0.1
      norm_num)]
  rw [envForest_biome]

theorem envForest_structures_no_tree (coord : Int × Int) :
    ∀ (sites : List (Nat × Nat)) (c : Chunk) (r : Nat),
    (∀ p ∈ sites, siteProfile c p.1 p.2) → 1 ≤ r →
    sites.foldl (structureSiteStep envForest 42 coord) (c, r) =
      (c, r + sites.length) := by
  intro sites
  induction sites with
  | nil =>
      intro c r _ _
      rw [List.foldl_nil, List.length_nil]
      rfl
  | cons p rest ih =>
      intro c r hsites hr
      rw [List.foldl_cons]
      have hstep : structureSiteStep envForest 42 coord (c, r) p =
          (c, r + 1) := by
        unfold structureSiteStep
        dsimp only
        rw [findSurfaceY_of_site c p.1 p.2
          (hsites p (List.mem_cons_self _ _))]
        show (if seaLevel ≤ ((69 : Nat) : Int) ∧
              ((69 : Nat) : Int) < (CHUNK_HEIGHT : Int) - 10 then
            let biome := GetBiome envForest 42 (worldQ coord.1 p.1)
              (worldQ coord.2 p.2)
            let u := envForest.uniform01 (envForest.rngStream r)
            if u < 0.1 then
              PlaceTree envForest c p.1 p.2 69 biome (r + 1)
            else (c, r + 1)
          else (c, r)) = (c, r + 1)
        rw [if_pos (by decide)]
        dsimp only
        have hrng : envForest.rngStream r = 5 := by
          show (if r = 0 then 0 else 5) = 5
          rw [if_neg (by omega)]
        have hu : ¬ envForest.uniform01 (envForest.rngStream r) < 0.1 := by
          rw [hrng]
          show ¬ (1 : ℚ) / 2 < 0.1
          norm_num
        rw [if_neg hu]
      rw [hstep]
      rw [ih c (r + 1) (fun q hq => hsites q (List.mem_cons_of_mem _ hq))
        (by omega)]
      rw [List.length_cons]
      rw [show r + (rest.length + 1) = r + 1 + rest.length from by omega]

theorem envForest_structures_from_zero (coord : Int × Int) (c : Chunk)
    (hP : colProfile c) :
    ∃ c₁ : Chunk, GenerateStructures envForest 42 coord c 0 = (c₁, 10) ∧
      c₁.GetBlock ↑(2 : Nat) ↑(70 : Nat) ↑(2 : Nat) = blockWOOD := by
  unfold GenerateStructures treeSites
  rw [List.foldl_cons]
  rw [envForest_first_site coord c (hP 2 2 (by decide) (by decide))]
  rcases hPT : PlaceTree envForest c 2 2 69 Biome.forest 1 with ⟨c1, r1⟩
  have hr1 : r1 = 2 := by
    have hsnd := placeTree_snd envForest c 2 2 69 Biome.forest 1
      (by decide)
    rw [hPT] at hsnd
    exact hsnd
  subst hr1
  have hc1wood : c1.GetBlock ↑(2 : Nat) ↑(70 : Nat) ↑(2 : Nat) =
      blockWOOD := by
    have hfirst := placeTree_getBlock_first envForest c 2 2 69 Biome.forest
      1 (by decide) (by decide) (by decide) (by decide)
    rw [hPT] at hfirst
    exact hfirst
  have hrest : ∀ p ∈ ([(2, 6), (2, 10), (6, 2), (6, 6), (6, 10), (10, 2),
      (10, 6), (10, 10)] : List (Nat × Nat)), siteProfile c1 p.1 p.2 := by
    intro p hp
    have hother : ¬((2 : Nat) = p.1 ∧ (2 : Nat) = p.2) := by
      simp only [List.mem_cons, List.not_mem_nil, or_false] at hp
      rcases hp with rfl | rfl | rfl | rfl | rfl | rfl | rfl | rfl <;>
        decide
    have hbounds : p.1 < 16 ∧ p.2 < 16 := by
      simp only [List.mem_cons, List.not_mem_nil, or_false] at hp
      rcases hp with rfl | rfl | rfl | rfl | rfl | rfl | rfl | rfl <;>
        exact ⟨by decide, by decide⟩
    refine ⟨?_, ?_⟩
    · have heq : c1.GetBlock ↑p.1 ((69 : Nat) : Int) ↑p.2 =
          c.GetBlock ↑p.1 ((69 : Nat) : Int) ↑p.2 := by
        have hoth := placeTree_getBlock_other envForest c 2 2 69
          Biome.forest 1 p.1 p.2 ((69 : Nat) : Int) hother
        rw [hPT] at hoth
        exact hoth
      rw [heq]
      exact (hP p.1 p.2 hbounds.1 hbounds.2).1
    · intro y h1 h2
      have heq : c1.GetBlock ↑p.1 ↑y ↑p.2 = c.GetBlock ↑p.1 ↑y ↑p.2 := by
        have hoth := placeTree_getBlock_other envForest c 2 2 69
          Biome.forest 1 p.1 p.2 ↑y hother
        rw [hPT] at hoth
        exact hoth
      rw [heq]
      exact (hP p.1 p.2 hbounds.1 hbounds.2).2 y h1 h2
  rw [envForest_structures_no_tree coord
    [(2, 6), (2, 10), (6, 2), (6, 6), (6, 10), (10, 2), (10, 6), (10, 10)]
    c1 2 hrest (by omega)]
  exact ⟨c1, rfl, hc1wood⟩

theorem envForest_profile_after_dec (coord : Int × Int) (c : Chunk) :
    colProfile (ApplySurfaceDecorations envForest 42 coord
      (GenerateTerrainWithDensity envForest 42 coord c)) := by
  apply decorations_profile
  intro x z hx hz
  refine ⟨?_, ?_⟩
  · left
    have h := terrain_getBlock envForest 42 coord c x z 69 hx hz
      (by decide)
    rw [h]
    exact envForest_columnValue_69 coord x z
  · intro y h1 h2
    rw [terrain_getBlock envForest 42 coord c x z y hx hz h2]
    exact envForest_columnValue_air coord x z y h1 h2

/-- `GenerateChunk`, with its intermediate lets spelled out.  This is a
purely structural unfolding (the right-hand side is the zeta-reduced
body), used so that later proofs never force a projection of an
unevaluated generator application. -/
theorem generateChunkM_def (env : GenEnv) (seed : Int) (c : Chunk)
    (rng : Nat) :
    GenerateChunkM env seed c rng =
      ({ coordX := (GenerateStructures env seed (c.coordX, c.coordZ)
            (GenerateOres env seed (c.coordX, c.coordZ)
              (GenerateCaves env seed (c.coordX, c.coordZ)
                (ApplySurfaceDecorations env seed (c.coordX, c.coordZ)
                  (GenerateTerrainWithDensity env seed
                    (c.coordX, c.coordZ) c)))) rng).1.coordX,
         coordZ := (GenerateStructures env seed (c.coordX, c.coordZ)
            (GenerateOres env seed (c.coordX, c.coordZ)
              (GenerateCaves env seed (c.coordX, c.coordZ)
                (ApplySurfaceDecorations env seed (c.coordX, c.coordZ)
                  (GenerateTerrainWithDensity env seed
                    (c.coordX, c.coordZ) c)))) rng).1.coordZ,
         blocks := (GenerateStructures env seed (c.coordX, c.coordZ)
            (GenerateOres env seed (c.coordX, c.coordZ)
              (GenerateCaves env seed (c.coordX, c.coordZ)
                (ApplySurfaceDecorations env seed (c.coordX, c.coordZ)
                  (GenerateTerrainWithDensity env seed
                    (c.coordX, c.coordZ) c)))) rng).1.blocks,
         isGenerated := true,
         isDirty := true,
         isLoaded := (GenerateStructures env seed (c.coordX, c.coordZ)
            (GenerateOres env seed (c.coordX, c.coordZ)
              (GenerateCaves env seed (c.coordX, c.coordZ)
                (ApplySurfaceDecorations env seed (c.coordX, c.coordZ)
                  (GenerateTerrainWithDensity env seed
                    (c.coordX, c.coordZ) c)))) rng).1.isLoaded },
        (GenerateStructures env seed (c.coordX, c.coordZ)
          (GenerateOres env seed (c.coordX, c.coordZ)
            (GenerateCaves env seed (c.coordX, c.coordZ)
              (ApplySurfaceDecorations env seed (c.coordX, c.coordZ)
                (GenerateTerrainWithDensity env seed
                  (c.coordX, c.coordZ) c)))) rng).2) := rfl

/-- Reading a cell of the generated/dirty-flagged copy of a chunk reads
the original chunk. -/
theorem getBlock_mk_fields (c : Chunk) (x y z : Int) :
    (Chunk.mk c.coordX c.coordZ c.blocks true true c.isLoaded).GetBlock
      x y z = c.GetBlock x y z := rfl

theorem envForest_generateChunkM_first (cx cz : Int) :
    (GenerateChunkM envForest 42 (mkChunk cx cz) 0).1.GetBlock ↑(2 : Nat)
      ↑(70 : Nat) ↑(2 : Nat) = blockWOOD ∧
    (GenerateChunkM envForest 42 (mkChunk cx cz) 0).2 = 10 := by
  have hd := generateChunkM_def envForest 42 (mkChunk cx cz) 0
  rw [mkChunk_coordX, mkChunk_coordZ, envForest_ores_id,
    envForest_caves_id] at hd
  obtain ⟨c₁, hGS, hwood⟩ := envForest_structures_from_zero (cx, cz)
    (ApplySurfaceDecorations envForest 42 (cx, cz)
      (GenerateTerrainWithDensity envForest 42 (cx, cz) (mkChunk cx cz)))
    (envForest_profile_after_dec (cx, cz) (mkChunk cx cz))
  rw [hGS] at hd
  dsimp only at hd
  rw [hd]
  constructor
  · dsimp only
    rw [getBlock_mk_fields]
    exact hwood
  · rfl

theorem envForest_generateChunkM_later (cx cz : Int) (r : Nat)
    (hr : 1 ≤ r) :
    (GenerateChunkM envForest 42 (mkChunk cx cz) r).1.GetBlock ↑(2 : Nat)
      ↑(70 : Nat) ↑(2 : Nat) = blockAIR := by
  have hd := generateChunkM_def envForest 42 (mkChunk cx cz) r
  rw [mkChunk_coordX, mkChunk_coordZ, envForest_ores_id,
    envForest_caves_id] at hd
  have hsites : ∀ p ∈ treeSites,
      siteProfile (ApplySurfaceDecorations envForest 42 (cx, cz)
        (GenerateTerrainWithDensity envForest 42 (cx, cz)
          (mkChunk cx cz))) p.1 p.2 := by
    intro p hp
    have hbounds : p.1 < 16 ∧ p.2 < 16 := by
      simp only [treeSites, List.mem_cons, List.not_mem_nil, or_false]
        at hp
      rcases hp with rfl | rfl | rfl | rfl | rfl | rfl | rfl | rfl | rfl <;>
        exact ⟨by decide, by decide⟩
    exact envForest_profile_after_dec (cx, cz) (mkChunk cx cz) p.1 p.2
      hbounds.1 hbounds.2
  have hGS : GenerateStructures envForest 42 (cx, cz)
      (ApplySurfaceDecorations envForest 42 (cx, cz)
        (GenerateTerrainWithDensity envForest 42 (cx, cz)
          (mkChunk cx cz))) r =
      (ApplySurfaceDecorations envForest 42 (cx, cz)
        (GenerateTerrainWithDensity envForest 42 (cx, cz)
          (mkChunk cx cz)), r + treeSites.length) := by
    unfold GenerateStructures
    exact envForest_structures_no_tree (cx, cz) treeSites _ r hsites hr
  rw [hGS] at hd
  dsimp only at hd
  rw [hd]
  dsimp only
  rw [getBlock_mk_fields]
  exact (envForest_profile_after_dec (cx, cz) (mkChunk cx cz) 2 2
    (by decide) (by decide)).2 70 (by decide) (by decide)

/-- C2. The two-run determinism claim fails: with the same seed 42 and the
forest environment, a generator that produces chunk (0, 0) first places a
tree there (the 10% roll on the first raw rng draw succeeds and the trunk
occupies (2, 70, 2)), while a generator that has produced chunk (1, 0)
beforehand reaches chunk (0, 0) with its member mt19937 already advanced
(10 draws consumed) and places no tree — the serialized chunks differ at
the byte of cell (2, 70, 2).  The rng is seeded once at construction and
never re-seeded per chunk, so GenerateChunk is not a function of (seed,
coordinate) alone. -/
theorem c2_generation_history_dependent :
    (GenerateChunkM envForest 42 (mkChunk 0 0) 0).1.Serialize ≠
      (GenerateChunkM envForest 42 (mkChunk 0 0)
        (GenerateChunkM envForest 42 (mkChunk 1 0) 0).2).1.Serialize := by
  intro heq
  have hA := (envForest_generateChunkM_first 0 0).1
  have hr10 : (GenerateChunkM envForest 42 (mkChunk 1 0) 0).2 = 10 :=
    (envForest_generateChunkM_first 1 0).2
  have hB : (GenerateChunkM envForest 42 (mkChunk 0 0)
      (GenerateChunkM envForest 42 (mkChunk 1 0) 0).2).1.GetBlock
      ↑(2 : Nat) ↑(70 : Nat) ↑(2 : Nat) = blockAIR := by
    rw [hr10]
    exact envForest_generateChunkM_later 0 0 10 (by omega)
  have hidx : blockIndex 2 70 2 < BLOCKS_PER_CHUNK := by decide
  have h1 := serialize_get_block
    (GenerateChunkM envForest 42 (mkChunk 0 0) 0).1 (blockIndex 2 70 2)
    hidx
  have h2 := serialize_get_block
    (GenerateChunkM envForest 42 (mkChunk 0 0)
      (GenerateChunkM envForest 42 (mkChunk 1 0) 0).2).1
    (blockIndex 2 70 2) hidx
  rw [heq] at h1
  have h3 := Option.some.inj (h1.symm.trans h2)
  have hA' : (GenerateChunkM envForest 42 (mkChunk 0 0) 0).1.blocks
      (blockIndex 2 70 2) = blockWOOD :=
    (getBlock_eq_blocks _ 2 70 2 (by decide) (by decide)
      (by decide)).symm.trans hA
  have hB' : (GenerateChunkM envForest 42 (mkChunk 0 0)
      (GenerateChunkM envForest 42 (mkChunk 1 0) 0).2).1.blocks
      (blockIndex 2 70 2) = blockAIR :=
    (getBlock_eq_blocks _ 2 70 2 (by decide) (by decide)
      (by decide)).symm.trans hB
  rw [hA', hB'] at h3
  exact absurd h3 (by decide)

end RayCave
